import Mathlib

/-!
Verification of the gcloads negotiation core against its specification.

The Python modules `app/logic/negotiator.py`, `app/logic/parser.py` and
`inbound_listener.py` are shallowly embedded below.  Machine floats are
modelled by `ℚ`: every price, floor and ratio appearing in the claims is
a small decimal number on which Python float arithmetic is exact (this
was checked separately for each concrete input used).  Python `round`
(banker's rounding) is modelled by `pyRound`, strings by
`String`/`List Char`, and database rows by explicit structures with list
state.  External effects (the OpenAI call, SMTP send, IMAP transport,
file storage) are modelled as explicit parameters.

Rational arithmetic is written with `Rat.divInt`-based helpers (`qmul`,
`qdiv`, `qofInt`) because Mathlib's `Rat.add`/`Rat.mul`/`Rat.div` are
`@[irreducible]` and would block kernel evaluation of concrete test
inputs; the bridge lemmas `qmul_eq`, `qdiv_eq`, `qofInt_eq` identify the
helpers with the ordinary field operations.
-/

namespace GCLoads

/-- Kernel-computable multiplication on `ℚ` (equal to `a * b`, see
`qmul_eq`). -/
def qmul (a b : ℚ) : ℚ :=
  Rat.divInt (a.num * b.num) (a.den * b.den)

/-- Kernel-computable division on `ℚ` (equal to `a / b`, see
`qdiv_eq`). -/
def qdiv (a b : ℚ) : ℚ :=
  Rat.divInt (a.num * b.den) (a.den * b.num)

/-- Kernel-computable integer embedding into `ℚ`. -/
def qofInt (n : ℤ) : ℚ :=
  Rat.divInt n 1

/-- Python builtin `max` on two rationals.  Defined by an explicit
comparison so that concrete instances evaluate by kernel reduction. -/
def pymax (a b : ℚ) : ℚ :=
  if a ≤ b then b else a

/-- Python `round` on a rational: round half to even (banker's rounding),
as used by `round(x)` in `negotiator.py`.  The fractional part is built
with `Rat.divInt` so that concrete inputs evaluate by kernel
reduction. -/
def pyRound (q : ℚ) : ℤ :=
  let f := ⌊q⌋
  let fr := Rat.divInt (q.num - f * q.den) q.den
  if fr < Rat.divInt 1 2 then f
  else if Rat.divInt 1 2 < fr then f + 1
  else if f % 2 = 0 then f else f + 1

/-- Embedding of `_counter_target_from_floor` (negotiator.py:46-48):
`round(absolute_floor * 1.08 / 50) * 50`. -/
def counter_target_from_floor (absolute_floor : ℚ) : ℚ :=
  qmul (qofInt (pyRound (qdiv (qmul absolute_floor (Rat.divInt 27 25)) 50))) 50

/-- Embedding of `_absolute_floor` (negotiator.py:51-60).  The driver
settings fields `min_cpm`/`min_flat_rate` and the negotiation field
`distance_miles` are passed explicitly (absent attributes read as 0 via
`getattr(..., 0) or 0` in the source; the `Negotiation` ORM model has no
`distance_miles` column, so the live value is always 0, but the function
is modelled in full generality). -/
def absolute_floor (minCpm minFlatRate distanceMiles brokerPriceDetected : ℚ) : ℚ :=
  let cpmFloor := qmul minCpm distanceMiles
  let af := pymax minFlatRate cpmFloor
  if af ≤ 0 then qmul brokerPriceDetected (Rat.divInt 11 10) else af

/-- The decision payload produced by `process_negotiation_logic` and
`_enforce_decision_guardrails` (the dict keys `action`, `price`,
`template`; the human-readable `log` string is modelled separately by
`decisionLog`). -/
structure Decision where
  action : String
  price : Option ℚ
  template : String
deriving DecidableEq, Repr

/-- Embedding of `process_negotiation_logic` (negotiator.py:399-457),
decision part.  The status mutation it performs on the negotiation row is
modelled by `statusAfterNegotiationLogic`. -/
def process_negotiation_logic (minCpm minFlatRate distanceMiles detected : ℚ) : Decision :=
  let af := absolute_floor minCpm minFlatRate distanceMiles detected
  let zr := if 0 < af then qdiv detected af else 0
  if Rat.divInt 19 20 ≤ zr then
    { action := "SEND_COUNTER", price := some (pymax detected af), template := "close_the_deal" }
  else if Rat.divInt 4 5 ≤ zr ∧ zr < Rat.divInt 19 20 then
    { action := "SEND_COUNTER", price := some (counter_target_from_floor af),
      template := "standard_negotiation" }
  else if zr < Rat.divInt 4 5 then
    { action := "WALK_AWAY", price := none, template := "polite_decline" }
  else
    { action := "SEND_COUNTER", price := some (counter_target_from_floor af),
      template := "standard_negotiation" }

/-- The `negotiation.status = "CLOSING_STANCE"` mutation performed inside
`process_negotiation_logic` (negotiator.py:411) in the accept zone. -/
def statusAfterNegotiationLogic (minCpm minFlatRate distanceMiles detected : ℚ)
    (status : String) : String :=
  let af := absolute_floor minCpm minFlatRate distanceMiles detected
  let zr := if 0 < af then qdiv detected af else 0
  if Rat.divInt 19 20 ≤ zr then "CLOSING_STANCE" else status

/-- ASCII uppercasing, modelling Python `str.upper` on the ASCII action
strings involved. -/
def pyUpper (s : String) : String :=
  ⟨s.data.map Char.toUpper⟩

/-- The action-normalisation prefix of `_enforce_decision_guardrails`
(negotiator.py:65-67): `str(safe.get("action") or "SEND_COUNTER").upper()`
followed by the vocabulary check.  `none` models a missing key, `some ""`
a falsy empty string. -/
def normalizeGuardAction (action : Option String) : String :=
  let raw := match action with
    | none => "SEND_COUNTER"
    | some s => if s = "" then "SEND_COUNTER" else s
  let u := pyUpper raw
  if u = "SEND_COUNTER" ∨ u = "WALK_AWAY" ∨ u = "FINALIZE" then u else "SEND_COUNTER"

/-- Embedding of `_enforce_decision_guardrails` (negotiator.py:63-99).
The untrusted suggestion's `price` field is modelled after the source's
parse step `float(str(raw_price)...)`: `some q` is a successful parse
with value `q`, `none` a missing or unparseable price. -/
def enforce_decision_guardrails (minCpm minFlatRate distanceMiles detected : ℚ)
    (action : Option String) (price : Option ℚ) (template : Option String) : Decision :=
  let a := normalizeGuardAction action
  let af := absolute_floor minCpm minFlatRate distanceMiles detected
  if a = "WALK_AWAY" then
    { action := "WALK_AWAY", price := none, template := "polite_decline" }
  else
    let parsedPrice := match price with
      | some p => p
      | none => counter_target_from_floor af
    let floorBounded := pymax parsedPrice af
    let rounded0 := qmul (qofInt (pyRound (qdiv floorBounded 50))) 50
    let rounded := if rounded0 ≤ 0 then qmul (qofInt (pyRound (qdiv af 50))) 50 else rounded0
    let t0 := match template with
      | none => "standard_negotiation"
      | some s => if s = "" then "standard_negotiation" else s
    let t1 := if t0 = "close_the_deal" ∨ t0 = "standard_negotiation" ∨ t0 = "polite_decline"
      then t0 else "standard_negotiation"
    let t := if a = "FINALIZE" then "close_the_deal" else t1
    { action := "SEND_COUNTER", price := some rounded, template := t }

/-- Python regex `\s` on the ASCII texts involved. -/
def isSpaceChar (c : Char) : Bool :=
  c = ' ' || c = '\t' || c = '\n' || c = '\r' || c.toNat = 11 || c.toNat = 12

/-- Python regex `\w` (word character) on ASCII texts. -/
def isWordChar (c : Char) : Bool :=
  c.isAlphanum || c = '_'

/-- Numeric value of a digit string, as used by Python `float` on the
integral digit captures. -/
def natOfDigits (ds : List Char) : ℕ :=
  ds.foldl (fun n c => n * 10 + (c.toNat - 48)) 0

/-- Kernel-computable embedding of a natural number into `ℚ`. -/
def qofNat (n : ℕ) : ℚ :=
  qofInt (Int.ofNat n)

/-- One pass of `re.finditer`: attempt a match at every position, on a
success record the captured value and resume after the match (matches are
non-overlapping), otherwise advance one character.  `prev` carries the
previous character for word-boundary tests; `fuel` only serves
termination and is initialised to more than the text length. -/
def scanAux (tryAt : Option Char → List Char → Option (ℚ × ℕ)) :
    ℕ → Option Char → List Char → List ℚ
  | 0, _, _ => []
  | _ + 1, _, [] => []
  | fuel + 1, prev, c :: rest =>
    match tryAt prev (c :: rest) with
    | some (v, n) =>
      v :: scanAux tryAt fuel ((c :: rest)[n - 1]?) ((c :: rest).drop (max n 1))
    | none => scanAux tryAt fuel (some c) rest

/-- Run a single-pattern scanner over a whole text. -/
def runScanner (tryAt : Option Char → List Char → Option (ℚ × ℕ)) (s : List Char) : List ℚ :=
  scanAux tryAt (s.length + 1) none s

/-- The `(?:,\d{3})+` comma-group tail of the currency pattern: returns
the concatenated digits and the number of characters consumed (0 when no
group matches). -/
def parseCommaGroups : List Char → (List Char × ℕ)
  | ',' :: a :: b :: c :: rest =>
    if a.isDigit && b.isDigit && c.isDigit then
      let (ds, n) := parseCommaGroups rest
      (a :: b :: c :: ds, 4 + n)
    else ([], 0)
  | _ => ([], 0)

/-- The optional `(?:\.\d{1,2})?` decimal tail (consumed length only; the
capture group of the currency pattern excludes it). -/
def parseOptDecimal : List Char → ℕ
  | '.' :: rest =>
    let ds := rest.takeWhile Char.isDigit
    if ds.length = 0 then 0 else 1 + min ds.length 2
  | _ => 0

/-- Matcher for `\$\s*(\d{1,3}(?:,\d{3})+|\d{3,5})(?:\.\d{1,2})?`
(negotiator.py:196).  The alternation prefers the comma-grouped form;
regex backtracking cannot produce other matches because a shortened digit
prefix is still followed by a digit, never by a comma. -/
def tryDollar (_prev : Option Char) (s : List Char) : Option (ℚ × ℕ) :=
  match s with
  | '$' :: s1 =>
    let ws := s1.takeWhile isSpaceChar
    let s2 := s1.drop ws.length
    let ds := s2.takeWhile Char.isDigit
    if 1 ≤ ds.length ∧ ds.length ≤ 3 ∧ (parseCommaGroups (s2.drop ds.length)).2 ≠ 0 then
      let g := parseCommaGroups (s2.drop ds.length)
      let dec := parseOptDecimal (s2.drop (ds.length + g.2))
      some (qofNat (natOfDigits (ds ++ g.1)), 1 + ws.length + ds.length + g.2 + dec)
    else if 3 ≤ ds.length then
      let k := min ds.length 5
      let dec := if k = ds.length then parseOptDecimal (s2.drop k) else 0
      some (qofNat (natOfDigits (ds.take k)), 1 + ws.length + k + dec)
    else none
  | _ => none

/-- Matcher for `\b(\d+(?:\.\d+)?)\s*k\b` (negotiator.py:205).  The value
is `float(match) * 1000`, exact on the decimal literals involved. -/
def tryK (prev : Option Char) (s : List Char) : Option (ℚ × ℕ) :=
  let boundary := match prev with
    | none => true
    | some c => !isWordChar c
  if !boundary then none
  else
    let ds := s.takeWhile Char.isDigit
    if ds.length = 0 then none
    else
      let s1 := s.drop ds.length
      let fr := match s1 with
        | '.' :: t =>
          let f := t.takeWhile Char.isDigit
          if f.length = 0 then (([] : List Char), 0, s1) else (f, f.length + 1, t.drop f.length)
        | _ => (([] : List Char), 0, s1)
      let ws := fr.2.2.takeWhile isSpaceChar
      let s3 := fr.2.2.drop ws.length
      match s3 with
      | 'k' :: s4 =>
        let tailBoundary := match s4 with
          | [] => true
          | d :: _ => !isWordChar d
        if tailBoundary then
          some (Rat.divInt ((natOfDigits (ds ++ fr.1) : ℤ) * 1000) ((10 : ℤ) ^ fr.1.length),
            ds.length + fr.2.1 + ws.length + 1)
        else none
      | _ => none

/-- Matcher for `\b(\d{1,3})\s*hundred\b` (negotiator.py:213).  A digit
run longer than 3 cannot match even after backtracking, because any
shorter prefix is still followed by a digit. -/
def tryHundred (prev : Option Char) (s : List Char) : Option (ℚ × ℕ) :=
  let boundary := match prev with
    | none => true
    | some c => !isWordChar c
  if !boundary then none
  else
    let ds := s.takeWhile Char.isDigit
    if ds.length = 0 ∨ 3 < ds.length then none
    else
      let s1 := s.drop ds.length
      let ws := s1.takeWhile isSpaceChar
      let s2 := s1.drop ws.length
      if s2.take 7 = "hundred".data then
        let s3 := s2.drop 7
        let tailBoundary := match s3 with
          | [] => true
          | d :: _ => !isWordChar d
        if tailBoundary then
          some (qofNat (natOfDigits ds * 100), ds.length + ws.length + 7)
        else none
      else none

/-- One alternation branch of the offer-verb pattern
`\b(?:at|for|do|offer|offering|rate)\s*\$?\s*(\d{3,5})\b`
(negotiator.py:221), for a fixed verb. -/
def tryVerbWith (verb : List Char) (s : List Char) : Option (ℚ × ℕ) :=
  if s.take verb.length = verb then
    let s1 := s.drop verb.length
    let ws1 := s1.takeWhile isSpaceChar
    let s2 := s1.drop ws1.length
    let dp := match s2 with
      | '$' :: t => (1, t)
      | _ => (0, s2)
    let ws2 := dp.2.takeWhile isSpaceChar
    let s4 := dp.2.drop ws2.length
    let ds := s4.takeWhile Char.isDigit
    if 3 ≤ ds.length ∧ ds.length ≤ 5 then
      let s5 := s4.drop ds.length
      let tailBoundary := match s5 with
        | [] => true
        | d :: _ => !isWordChar d
      if tailBoundary then
        some (qofNat (natOfDigits ds), verb.length + ws1.length + dp.1 + ws2.length + ds.length)
      else none
    else none
  else none

/-- The verb alternation in source order; regex alternation prefers the
leftmost listed branch. -/
def offerVerbs : List (List Char) :=
  ["at".data, "for".data, "do".data, "offer".data, "offering".data, "rate".data]

/-- Matcher for the offer-verb pattern (negotiator.py:221). -/
def tryVerb (prev : Option Char) (s : List Char) : Option (ℚ × ℕ) :=
  let boundary := match prev with
    | none => true
    | some c => !isWordChar c
  if !boundary then none
  else offerVerbs.findSome? (fun v => tryVerbWith v s)

/-- The `300 <= value <= 20000` plausibility filter applied to every
candidate in `extract_price_from_text`. -/
def inPriceRange (v : ℚ) : Bool :=
  decide ((300 : ℚ) ≤ v) && decide (v ≤ (20000 : ℚ))

/-- Python `str.lower` on ASCII text (`normalized = text.lower()`). -/
def lowerChars (s : List Char) : List Char :=
  s.map Char.toLower

/-- The in-range candidates of the four `re.finditer` passes of
`extract_price_from_text` (negotiator.py:196-227), in source order. -/
def priceCandidates (t : List Char) : List ℚ :=
  (runScanner tryDollar t).filter inPriceRange ++
  (runScanner tryK t).filter inPriceRange ++
  (runScanner tryHundred t).filter inPriceRange ++
  (runScanner tryVerb t).filter inPriceRange

/-- Python `max` over a nonempty candidate list (0 on the empty list,
which the caller rules out). -/
def maxCandidate : List ℚ → ℚ
  | [] => 0
  | [x] => x
  | x :: y :: xs => pymax x (maxCandidate (y :: xs))

/-- Embedding of `extract_price_from_text` (negotiator.py:189-235).
`ignored` models the `ignored_values` set (`[]` for `None`/empty, on
which the source skips the filtering step). -/
def extract_price_from_text (text : List Char) (ignored : List ℚ) : Option ℚ :=
  if text = [] then none
  else
    let cands := priceCandidates (lowerChars text)
    let kept := if ignored.isEmpty then cands
      else cands.filter (fun v => decide (¬ v ∈ ignored))
    if kept.isEmpty then none else some (maxCandidate kept)

/-- Python `str.strip` (whitespace trim at both ends). -/
def trimChars (s : List Char) : List Char :=
  ((s.dropWhile isSpaceChar).reverse.dropWhile isSpaceChar).reverse

/-- Character class `[a-z0-9._-]` with `re.IGNORECASE`, used for both the
local part and the plus token of `ROUTING_ADDRESS_RE` (parser.py:11). -/
def isLocalTokenChar (c : Char) : Bool :=
  c.isAlphanum || c = '.' || c = '_' || c = '-'

/-- Character class `[a-z0-9.-]` with `re.IGNORECASE` (the domain part of
`ROUTING_ADDRESS_RE`). -/
def isDomainChar (c : Char) : Bool :=
  c.isAlphanum || c = '.' || c = '-'

/-- Match of `([a-z0-9._-]+)\+([a-z0-9._-]+)@([a-z0-9.-]+)` anchored at
the head of `s`.  Backtracking cannot produce other matches at a given
start: a shortened greedy run is still followed by a character of the
same class, never by the required `+` or `@`. -/
def tryPlusAt (s : List Char) : Option (List Char × List Char × List Char) :=
  let ls := s.takeWhile isLocalTokenChar
  if ls.length = 0 then none
  else match s.drop ls.length with
    | '+' :: s2 =>
      let ts := s2.takeWhile isLocalTokenChar
      if ts.length = 0 then none
      else match s2.drop ts.length with
        | '@' :: s4 =>
          let dsm := s4.takeWhile isDomainChar
          if dsm.length = 0 then none else some (ls, ts, dsm)
        | _ => none
    | _ => none

/-- `re.search` with `ROUTING_ADDRESS_RE`: the leftmost matching start
position wins. -/
def findPlusMatch : List Char → Option (List Char × List Char × List Char)
  | [] => none
  | c :: rest =>
    match tryPlusAt (c :: rest) with
    | some g => some g
    | none => findPlusMatch rest

/-- The `EMAIL_PLUS_LOCAL_MODE` configuration read by `_plus_local_mode`
(parser.py:24-31); any unrecognised value falls back to
`dispatch_and_handles`, so the two constructors cover all cases. -/
inductive PlusLocalMode
  | dispatchOnly
  | dispatchAndHandles
deriving DecidableEq, Repr

/-- Embedding of `_is_allowed_local_part` (parser.py:34-40); the
candidate is already stripped and lowercased by the caller, as in the
source. -/
def is_allowed_local_part (mode : PlusLocalMode) (candidate : List Char) : Bool :=
  if candidate = "dispatch".data then true
  else if mode = PlusLocalMode.dispatchOnly then false
  else candidate.all Char.isAlphanum && decide (2 ≤ candidate.length)
    && decide (candidate.length ≤ 32)

/-- Embedding of `_extract_plus_token_from_address` (parser.py:43-62).
The `strip()` calls are no-ops because the regex classes exclude
whitespace; lowercasing is kept.  Returns (local_part, token). -/
def extract_plus_token_from_address (mode : PlusLocalMode) (emailDomain : String)
    (address : List Char) : Option (List Char × List Char) :=
  match findPlusMatch address with
  | none => none
  | some (l, t, d) =>
    let dom := if emailDomain = "" then "gcdloads.com" else emailDomain
    if lowerChars d ≠ lowerChars dom.data then none
    else
      let localPart := lowerChars l
      if localPart.isEmpty || t.isEmpty then none
      else if !(is_allowed_local_part mode localPart) then none
      else some (localPart, t)

/-- Split a character list on commas (the accumulator holds the current
item reversed). -/
def splitOnCommaAux : List Char → List Char → List (List Char)
  | [], acc => [acc.reverse]
  | ',' :: rest, acc => acc.reverse :: splitOnCommaAux rest []
  | c :: rest, acc => splitOnCommaAux rest (c :: acc)

/-- Split a character list on commas. -/
def splitOnComma (s : List Char) : List (List Char) :=
  splitOnCommaAux s []

/-- Modelled from Python `email.utils.getaddresses` for the plain
comma-separated address lists this system handles: each comma-separated
item contributes its angle-bracket addr-spec when present, else its
trimmed text.  Display-name quoting and comments are not modelled. -/
def simpleGetAddresses (v : String) : List String :=
  (splitOnComma v.data).map (fun item =>
    match item.dropWhile (fun c => c ≠ '<') with
    | '<' :: rest => ⟨rest.takeWhile (fun c => c ≠ '>')⟩
    | _ => ⟨trimChars item⟩)

/-- Embedding of `extract_plus_token` (parser.py:65-70): try each parsed
address, then fall back to scanning the raw value. -/
def extract_plus_token (mode : PlusLocalMode) (emailDomain : String)
    (addressValue : String) : Option (List Char × List Char) :=
  match (simpleGetAddresses addressValue).findSome?
      (fun a => extract_plus_token_from_address mode emailDomain a.data) with
  | some r => some r
  | none => extract_plus_token_from_address mode emailDomain addressValue.data

/-- The routing dict produced by `_extract_from_text` and
`extract_routing_data` (keys `driver_handle`, `local_part`,
`load_ref`). -/
structure RoutingData where
  driverHandle : List Char
  localPart : List Char
  loadRef : List Char
deriving DecidableEq, Repr

/-- Embedding of `_extract_from_text` (parser.py:73-82). -/
def extractFromText (mode : PlusLocalMode) (emailDomain : String)
    (value : String) : Option RoutingData :=
  match extract_plus_token mode emailDomain value with
  | none => none
  | some (l, t) => some { driverHandle := l, localPart := l, loadRef := t }

/-- Embedding of `extract_routing_data` (parser.py:85-90). -/
def extract_routing_data (mode : PlusLocalMode) (emailDomain : String)
    (toAddress : String) : Option RoutingData :=
  match (simpleGetAddresses toAddress).findSome?
      (fun a => extractFromText mode emailDomain a) with
  | some r => some r
  | none => extractFromText mode emailDomain toAddress

/-- An inbound message: the ordered header list (name, raw value).
Bodies and attachments are modelled where needed by the inbound-listener
state model. -/
structure EmailMsg where
  headers : List (String × String)
deriving Repr

/-- `msg.get_all(header, [])`: all values of a header, in order, matched
case-insensitively as in the Python email API. -/
def getAll (m : EmailMsg) (name : String) : List String :=
  (m.headers.filter (fun h => lowerChars h.1.data = lowerChars name.data)).map
    (fun h => h.2)

/-- `msg.get(header)`: the first value of a header, if any. -/
def msgGet (m : EmailMsg) (name : String) : Option String :=
  (getAll m name).head?

/-- The result of `extract_routing_from_message`, including the
diagnostic `matched_header` and `raw_address` keys. -/
structure RouteMatch where
  driverHandle : List Char
  localPart : List Char
  loadRef : List Char
  matchedHeader : String
  rawAddress : String
deriving DecidableEq, Repr

/-- The fixed recipient-header scan order (parser.py:94). -/
def headerOrder : List String :=
  ["Delivered-To", "X-Original-To", "Envelope-To", "To", "Cc", "Reply-To"]

/-- Embedding of `extract_routing_from_message` (parser.py:93-107). -/
def extract_routing_from_message (mode : PlusLocalMode) (emailDomain : String)
    (m : EmailMsg) : Option RouteMatch :=
  headerOrder.findSome? (fun h =>
    (getAll m h).findSome? (fun v =>
      (extract_routing_data mode emailDomain v).map
        (fun r => { driverHandle := r.driverHandle, localPart := r.localPart,
                    loadRef := r.loadRef, matchedHeader := h, rawAddress := v })))

/-- Match of `SUBJECT_NEGOTIATION_TOKEN_RE` =
`\[\s*GCD\s*:\s*(\d+)\s*\]` (parser.py:17) anchored at the head of
`s`. -/
def tryGcdTokenAt (s : List Char) : Option ℕ :=
  match s with
  | '[' :: s1 =>
    match s1.dropWhile isSpaceChar with
    | g :: c :: d :: s3 =>
      if g.toLower = 'g' && c.toLower = 'c' && d.toLower = 'd' then
        match s3.dropWhile isSpaceChar with
        | ':' :: s5 =>
          let s6 := s5.dropWhile isSpaceChar
          let ds := s6.takeWhile Char.isDigit
          if ds.length = 0 then none
          else
            match (s6.drop ds.length).dropWhile isSpaceChar with
            | ']' :: _ => some (natOfDigits ds)
            | _ => none
        | _ => none
      else none
    | _ => none
  | _ => none

/-- `re.search` with the subject token pattern: leftmost match wins. -/
def findGcdToken : List Char → Option ℕ
  | [] => none
  | c :: rest =>
    match tryGcdTokenAt (c :: rest) with
    | some n => some n
    | none => findGcdToken rest

/-- Python `str.isdigit` on ASCII text: nonempty and all digits. -/
def isDigitString (s : List Char) : Bool :=
  !s.isEmpty && s.all Char.isDigit

/-- The resolution layer tags returned by
`extract_negotiation_id_from_message`. -/
inductive ResolutionLayer
  | plusTag
  | subjectToken
  | xHeader
deriving DecidableEq, Repr

/-- Embedding of `extract_negotiation_id_from_message`
(parser.py:125-152). -/
def extract_negotiation_id_from_message (mode : PlusLocalMode) (emailDomain : String)
    (m : EmailMsg) : Option (ResolutionLayer × ℕ) :=
  let plusTok := (extract_routing_from_message mode emailDomain m).map (fun r => r.loadRef)
  if (match plusTok with
      | some tok => isDigitString tok
      | none => false) then
    some (ResolutionLayer.plusTag, natOfDigits (plusTok.getD []))
  else
    let subjectVal := trimChars ((msgGet m "Subject").getD "").data
    match findGcdToken subjectVal with
    | some n => some (ResolutionLayer.subjectToken, n)
    | none =>
      let headerVal := trimChars ((msgGet m "X-GCD-Negotiation-ID").getD "").data
      if isDigitString headerVal then some (ResolutionLayer.xHeader, natOfDigits headerVal)
      else none

/-- Boolean substring test on character lists, modelling Python `in` on
strings. -/
def listHasSub (needle : List Char) : List Char → Bool
  | [] => needle.isEmpty
  | c :: rest => List.isPrefixOf needle (c :: rest) || listHasSub needle rest

/-- Case-insensitive containment `needle.lower() in hay.lower()`, as used
at negotiator.py:300. -/
def containsCI (hay needle : String) : Bool :=
  listHasSub (lowerChars needle.data) (lowerChars hay.data)

/-- A negotiation row (`app/models/operations.py:7-24`); columns not read
or written by the verified core are omitted.  `distance_miles`,
`broker_email`, `lane`, `origin` and `destination` are not columns of
this model, so the negotiator's defensive `getattr` reads of them yield
their defaults (0, None, None, None, None); they are therefore not
fields here. -/
structure NegotiationR where
  id : ℕ
  loadId : ℕ
  driverId : ℕ
  brokerMcNumber : String
  status : String
  currentOffer : Option ℚ
  rateConPath : Option String
  pendingReviewSubject : Option String
  pendingReviewBody : Option String
  pendingReviewAction : Option String
  pendingReviewPrice : Option ℚ
deriving DecidableEq, Repr

/-- A message row (`app/models/operations.py:27-35`). -/
structure MessageR where
  negotiationId : ℕ
  sender : String
  body : String
  isRead : Bool
deriving DecidableEq, Repr

/-- The driver columns read by the verified core
(`app/models/driver.py`).  The `Driver` model has no `notify_on_decline`
column, so `getattr(driver_settings, "notify_on_decline", False)` at
negotiator.py:303 always yields False for these rows; it is therefore
not a field here. -/
structure DriverR where
  id : ℕ
  displayName : String
  minCpm : ℚ
  minFlatRate : ℚ
  autoNegotiate : Bool
  reviewBeforeSend : Bool
deriving DecidableEq, Repr

/-- The load columns read by the verified core (`app/models/load.py`). -/
structure LoadR where
  id : ℕ
  refId : String
  origin : Option String
  destination : Option String
deriving DecidableEq, Repr

/-- A broker-email row (`app/models/broker.py:32-43`); an absent email is
modelled as the falsy empty string. -/
structure BrokerEmailR where
  mcNumber : String
  email : String
  confidence : ℚ
deriving DecidableEq, Repr

/-- The database state visible to the verified core: explicit row
lists. -/
structure Db where
  negotiations : List NegotiationR
  messages : List MessageR
  drivers : List DriverR
  loads : List LoadR
  brokerEmails : List BrokerEmailR
deriving Repr

/-- `db.add(Message(...))`: the message log is append-only. -/
def addMessage (db : Db) (m : MessageR) : Db :=
  { db with messages := db.messages ++ [m] }

/-- Persisting a mutated negotiation ORM object: every row with the same
id takes the new value. -/
def updateNegotiation (db : Db) (n : NegotiationR) : Db :=
  { db with negotiations := db.negotiations.map (fun x => if x.id = n.id then n else x) }

/-- Decimal digits of a natural number. -/
def natToString (n : ℕ) : String :=
  ⟨Nat.toDigits 10 n⟩

/-- Thousands grouping of a reversed digit list (helper for the
`{:,.0f}` format). -/
def groupRev : List Char → List Char
  | a :: b :: c :: d :: rest => a :: b :: c :: ',' :: groupRev (d :: rest)
  | l => l

/-- Embedding of `_format_currency` (negotiator.py:16-23) on the decision
payloads of this model: `None` renders as "negotiable", a number as
`$X,XXX` via the `{:,.0f}` format (round half to even, thousands
grouped).  Negative prices never reach this formatter. -/
def format_currency (v : Option ℚ) : String :=
  match v with
  | none => "negotiable"
  | some q => ⟨'$' :: (groupRev (Nat.toDigits 10 (pyRound q).toNat).reverse).reverse⟩

/-- The `{:.2f}` format used for the ratio in the audit log strings
(nonnegative ratios only). -/
def formatRatio2 (q : ℚ) : String :=
  let n := (pyRound (qmul q 100)).toNat
  let ip := n / 100
  let fp := n % 100
  ⟨Nat.toDigits 10 ip ++ '.' ::
    (if fp < 10 then '0' :: Nat.toDigits 10 fp else Nat.toDigits 10 fp)⟩

/-- The `log` strings attached by `process_negotiation_logic`
(negotiator.py:417-456), split out of the decision payload. -/
def decisionLog (minCpm minFlatRate distanceMiles detected : ℚ) : String :=
  let af := absolute_floor minCpm minFlatRate distanceMiles detected
  let zr := if 0 < af then qdiv detected af else 0
  if Rat.divInt 19 20 ≤ zr then
    "GREEN ZONE (ratio " ++ formatRatio2 zr ++ "): Closing at " ++
      format_currency (some (pymax detected af)) ++ "."
  else if Rat.divInt 4 5 ≤ zr ∧ zr < Rat.divInt 19 20 then
    "YELLOW ZONE (ratio " ++ formatRatio2 zr ++ "): Countering at " ++
      format_currency (some (counter_target_from_floor af)) ++ "."
  else if zr < Rat.divInt 4 5 then
    "RED ZONE (ratio " ++ formatRatio2 zr ++ "): Offer " ++
      format_currency (some detected) ++ " too far below floor " ++
      format_currency (some af) ++ ". Walking away."
  else
    "YELLOW ZONE (ratio " ++ formatRatio2 zr ++ "): Countering at " ++
      format_currency (some (counter_target_from_floor af)) ++ "."

/-- Embedding of `generate_negotiation_email` (negotiator.py:149-186).
With the `Negotiation` model of this repository, `negotiation.origin` and
`negotiation.destination` do not exist, so the lane clause is always
empty; `load_ref` is `negotiation.load_id or negotiation.id` (the integer
foreign key, not the load's reference string). -/
def generate_negotiation_email (neg : NegotiationR) (decision : Decision) : String :=
  let formattedPrice := format_currency decision.price
  let loadRef := if neg.loadId ≠ 0 then natToString neg.loadId else natToString neg.id
  let intro := "Hi, this is dispatch checking in on load " ++ loadRef ++ "."
  if decision.template = "close_the_deal" then
    intro ++ "\n\n" ++ "If you can do " ++ formattedPrice ++
      " all-in, we can lock this in now and get moving.\n" ++
      "Send over your confirmation and we\x27ll finalize right away."
  else if decision.template = "polite_decline" then
    intro ++ "\n\n" ++
      "We appreciate the update, but we\x27re too far apart on rate to make this one work.\n" ++
      "If your number comes up, send it over and we\x27ll take another look."
  else
    intro ++ "\n\n" ++ "We\x27re interested and can do this for " ++ formattedPrice ++
      " all-in.\n" ++ "If that works for you, we\x27ll lock it down now."

/-- A structured suggestion returned by the external AI integration
(`resolve_ai_decision`, negotiator.py:102-146): the JSON keys `action`,
`price`, `template`, `email_body`.  `none` at the call site models a
missing key, a failed call, or a malformed response. -/
structure AiSuggestion where
  action : Option String
  price : Option ℚ
  template : Option String
  emailBody : String
deriving DecidableEq, Repr

/-- An attempted outbound send (`send_outbound_email` call,
negotiator.py:361-369). -/
structure OutboundEmail where
  recipient : String
  subject : String
  body : String
  loadRef : String
deriving DecidableEq, Repr

/-- Result of the Reply Orchestrator: the new database state, the return
code, and the attempted outbound sends. -/
structure BrokerReplyOutcome where
  db : Db
  retAction : String
  sends : List OutboundEmail
deriving Repr

/-- The `load_ref` computed at negotiator.py:242-243:
`str(load.ref_id or negotiation.load_id)`. -/
def replyLoadRef (neg : NegotiationR) (db : Db) : String :=
  match db.loads.find? (fun l => l.id = neg.loadId) with
  | some l => if l.refId ≠ "" then l.refId else natToString neg.loadId
  | none => natToString neg.loadId

/-- The ignored-value set built at negotiator.py:245-253 from the digits
of the load reference. -/
def replyIgnoredValues (loadRef : String) : List ℚ :=
  let numericRef := loadRef.data.filter Char.isDigit
  if numericRef.isEmpty then []
  else
    let c : ℚ := qofNat (natOfDigits numericRef)
    if (300 : ℚ) ≤ c ∧ c ≤ 20000 then [c] else []

/-- The email body composed at negotiator.py:264-269 and 300-301: the
AI-supplied body verbatim when present and non-empty after stripping,
else the template body; then the `Ref:` line is appended when the load
reference does not already occur case-insensitively. -/
def composedReplyBody (aiPayload : Option AiSuggestion) (neg1 : NegotiationR)
    (decision : Decision) (loadRef : String) : String :=
  let emailContent0 := match aiPayload with
    | some p =>
      let stripped : String := ⟨trimChars p.emailBody.data⟩
      if stripped ≠ "" then stripped else generate_negotiation_email neg1 decision
    | none => generate_negotiation_email neg1 decision
  if containsCI emailContent0 loadRef then emailContent0
  else emailContent0 ++ ("\n\nRef: " ++ loadRef)

/-- The highest-confidence broker email for a carrier
(negotiator.py:315-323): the first maximal-confidence matching row (the
database order on ties is unspecified), provided its email is
non-empty. -/
def maxByConfidence : List BrokerEmailR → Option BrokerEmailR
  | [] => none
  | r :: rs =>
    match maxByConfidence rs with
    | none => some r
    | some m => if decide (m.confidence ≤ r.confidence) then some r else some m

/-- Resolution of the broker destination address (negotiator.py:315-323);
`negotiation.broker_email` is not a column, so the lookup always runs. -/
def bestBrokerEmail (records : List BrokerEmailR) (mc : String) : Option String :=
  match maxByConfidence (records.filter (fun r => r.mcNumber = mc)) with
  | none => none
  | some r => if r.email ≠ "" then some r.email else none

/-- Embedding of `handle_broker_reply` (negotiator.py:238-396).  The
external AI call is the `aiPayload` parameter (`none` when the
integration is unconfigured or its call/parse failed); the SMTP send
result is the `sendSuccess` parameter.  The `decision["log"]` fill-in at
negotiator.py:271-289 is dead code because `process_negotiation_logic`
always sets a log, so the audit body is always `decisionLog`.  The
`notify_on_decline` read is always False for `Driver` rows (no such
column), so a walk-away never sends. -/
def handle_broker_reply (aiPayload : Option AiSuggestion) (sendSuccess : Bool)
    (neg : NegotiationR) (brokerMessageText : String) (drv : DriverR) (db : Db) :
    BrokerReplyOutcome :=
  let loadRef := replyLoadRef neg db
  let load := db.loads.find? (fun l => l.id = neg.loadId)
  match extract_price_from_text brokerMessageText.data (replyIgnoredValues loadRef) with
  | none => { db := db, retAction := "WAITING_FOR_HUMAN", sends := [] }
  | some detected =>
    let decision := process_negotiation_logic drv.minCpm drv.minFlatRate 0 detected
    let neg1 := { neg with
      status := statusAfterNegotiationLogic drv.minCpm drv.minFlatRate 0 detected neg.status }
    let emailContent := composedReplyBody aiPayload neg1 decision loadRef
    let db2 := addMessage (updateNegotiation db neg1)
      ⟨neg.id, "SYSTEM", decisionLog drv.minCpm drv.minFlatRate 0 detected, true⟩
    if decision.action = "WALK_AWAY" then
      { db := db2, retAction := decision.action, sends := [] }
    else
      let lane := match load with
        | some l =>
          match l.origin, l.destination with
          | some o, some d2 => if o ≠ "" ∧ d2 ≠ "" then o ++ " to " ++ d2 else ""
          | _, _ => ""
        | none => ""
      match bestBrokerEmail db.brokerEmails neg.brokerMcNumber with
      | none =>
        { db := addMessage db2
            ⟨neg.id, "SYSTEM", "AI could not send response: broker email missing.", false⟩,
          retAction := "WAITING_FOR_HUMAN", sends := [] }
      | some brokerEmail =>
        let subject0 := "Re: Load " ++ loadRef
        let subject := if lane ≠ "" then subject0 ++ " - " ++ lane else subject0
        if drv.reviewBeforeSend then
          let neg2 := { neg1 with
            pendingReviewSubject := some subject,
            pendingReviewBody := some emailContent,
            pendingReviewAction := some decision.action,
            pendingReviewPrice := decision.price }
          { db := addMessage (updateNegotiation db2 neg2)
              ⟨neg.id, "SYSTEM",
                "AI DRAFT READY: Review required before send. Action=" ++ decision.action
                  ++ " Price=" ++ format_currency decision.price, false⟩,
            retAction := "REVIEW_REQUIRED", sends := [] }
        else
          let outbound : OutboundEmail :=
            { recipient := brokerEmail, subject := subject, body := emailContent,
              loadRef := loadRef }
          if ¬ sendSuccess then
            { db := addMessage db2
                ⟨neg.id, "SYSTEM",
                  "AI attempted " ++ decision.action ++ " but SMTP failed.", false⟩,
              retAction := "WAITING_FOR_HUMAN", sends := [outbound] }
          else
            let neg3 := match decision.price with
              | some p => { neg1 with currentOffer := some p }
              | none => neg1
            { db := addMessage (updateNegotiation db2 neg3)
                ⟨neg.id, "SYSTEM",
                  "AI SENT: " ++ decision.action ++ " at " ++ format_currency decision.price,
                  false⟩,
              retAction := decision.action, sends := [outbound] }

/-- `_normalize_handle` (inbound_listener.py:33-34) and
`normalize_load_ref` (parser.py:20-21): lowercase, strip
non-alphanumerics. -/
def normalizeHandle (v : String) : String :=
  ⟨(lowerChars v.data).filter Char.isAlphanum⟩

/-- Embedding of `_find_driver_by_handle` (inbound_listener.py:118-131). -/
def find_driver_by_handle (db : Db) (handle : String) : Option DriverR :=
  let candidate : String := ⟨lowerChars (trimChars handle.data)⟩
  if candidate = "" then none
  else
    match db.drivers.find? (fun d => d.displayName = candidate) with
    | some d => some d
    | none => db.drivers.find?
        (fun d => normalizeHandle d.displayName = normalizeHandle candidate)

/-- The first maximal-id load (the `ORDER BY id DESC LIMIT 1` of
`_find_load_by_ref`). -/
def maxLoadById : List LoadR → Option LoadR
  | [] => none
  | l :: ls =>
    match maxLoadById ls with
    | none => some l
    | some m => if decide (m.id ≤ l.id) then some l else some m

/-- Embedding of `_find_load_by_ref` (inbound_listener.py:134-154): exact
reference match first, then normalized comparison ordered by id
descending. -/
def find_load_by_ref (db : Db) (loadRef : Option String) : Option LoadR :=
  let raw : String := ⟨trimChars ((loadRef.getD "").data)⟩
  if raw = "" then none
  else
    match db.loads.find? (fun l => l.refId = raw) with
    | some l => some l
    | none =>
      let nr := normalizeHandle raw
      if nr = "" then none
      else maxLoadById (db.loads.filter (fun l => normalizeHandle l.refId = nr))

/-- Embedding of `_set_manual_review` (inbound_listener.py:157-168): each
candidate transitions to MANUAL_REVIEW and receives an unread System
message (the warning-emoji prefix of the body is omitted). -/
def set_manual_review (db : Db) (negs : List NegotiationR) (reason : String) : Db :=
  negs.foldl (fun acc n =>
    addMessage (updateNegotiation acc { n with status := "MANUAL_REVIEW" })
      ⟨n.id, "System", "MANUAL REVIEW REQUIRED: " ++ reason, false⟩) db

/-- `ORDER BY id DESC` over negotiations (insertion sort; the database
order of equal ids is unspecified). -/
def insertDescN (n : NegotiationR) : List NegotiationR → List NegotiationR
  | [] => [n]
  | m :: ms => if decide (m.id ≤ n.id) then n :: m :: ms else m :: insertDescN n ms

/-- Sort negotiations by id descending. -/
def sortByIdDescN (l : List NegotiationR) : List NegotiationR :=
  l.foldr insertDescN []

/-- The non-terminal negotiations of a load, newest first
(inbound_listener.py:249-257). -/
def activeCandidatesForLoad (db : Db) (loadId : ℕ) : List NegotiationR :=
  sortByIdDescN (db.negotiations.filter
    (fun n => n.loadId = loadId ∧ n.status ≠ "RATE_CON_SIGNED"))

/-- The latest negotiation for a (driver, load) pair
(inbound_listener.py:236-244). -/
def latestNegotiationFor (db : Db) (driverId loadId : ℕ) : Option NegotiationR :=
  (sortByIdDescN (db.negotiations.filter
    (fun n => n.driverId = driverId ∧ n.loadId = loadId))).head?

/-- Lookup of a negotiation by id (inbound_listener.py:211-215). -/
def findNegotiationById (db : Db) (nid : ℕ) : Option NegotiationR :=
  db.negotiations.find? (fun n => n.id = nid)

/-- The message-derived inputs of `_route_and_store`
(inbound_listener.py:194-201) together with the external-world
parameters of the downstream pipeline.  The parser outputs
(`routingNegotiationId`, `routing`, `fallbackSubjectLoadRef`) are the
values of `extract_negotiation_id_from_message`,
`extract_routing_from_message` and `extract_load_ref_from_subject` on
the inbound message; `inboundBody` is `_extract_text_body(msg)`;
`hasPdfAttachment`/`attachmentName` model the saved PDF attachment of
the rate-con branch (file storage is abstract). -/
structure InboundEnv where
  inboundFrom : String
  inboundSubject : String
  inboundBody : String
  hasPdfAttachment : Bool
  attachmentName : String
  routingNegotiationId : Option (ResolutionLayer × ℕ)
  routing : Option RouteMatch
  fallbackSubjectLoadRef : Option String
  aiPayload : Option AiSuggestion
  sendSuccess : Bool
deriving Repr

/-- The outcome of the routing cascade of `_route_and_store`
(inbound_listener.py:203-278). -/
inductive RouteOutcome
  | ambiguous (cands : List NegotiationR) (reason : String)
  | unresolved
  | resolved (neg : NegotiationR) (drv : DriverR) (load : LoadR)
      (handle : String) (loadRef : String)
deriving Repr

/-- The routing cascade of `_route_and_store` (inbound_listener.py:203-285):
direct negotiation-id route, then handle+load-ref route, then the
subject load-reference heuristic with ambiguity detection. -/
def resolveInbound (env : InboundEnv) (db : Db) : RouteOutcome :=
  let direct : Option (NegotiationR × DriverR × LoadR × String × String) :=
    match env.routingNegotiationId with
    | none => none
    | some rn =>
      match findNegotiationById db rn.2 with
      | none => none
      | some neg =>
        match db.drivers.find? (fun d => d.id = neg.driverId),
            db.loads.find? (fun l => l.id = neg.loadId) with
        | some drv, some load =>
          some (neg, drv, load, drv.displayName,
            if load.refId ≠ "" then load.refId else natToString load.id)
        | _, _ => none
  match direct with
  | some (neg, drv, load, handle, loadRef) =>
    RouteOutcome.resolved neg drv load handle loadRef
  | none =>
    let viaRouting : Option (NegotiationR × DriverR × LoadR × String × String) :=
      match env.routing with
      | none => none
      | some route =>
        let handle : String := ⟨lowerChars (trimChars route.driverHandle)⟩
        let loadRef : String := ⟨trimChars route.loadRef⟩
        match find_driver_by_handle db handle, find_load_by_ref db (some loadRef) with
        | some drv, some load =>
          match latestNegotiationFor db drv.id load.id with
          | some neg => some (neg, drv, load, handle, loadRef)
          | none => none
        | _, _ => none
    match viaRouting with
    | some (neg, drv, load, handle, loadRef) =>
      RouteOutcome.resolved neg drv load handle loadRef
    | none =>
      match env.fallbackSubjectLoadRef with
      | none => RouteOutcome.unresolved
      | some fsr =>
        match find_load_by_ref db (some fsr) with
        | none => RouteOutcome.unresolved
        | some load =>
          let cands := activeCandidatesForLoad db load.id
          if cands.length = 1 then
            match cands with
            | [neg] =>
              match db.drivers.find? (fun d => d.id = neg.driverId) with
              | some drv =>
                RouteOutcome.resolved neg drv load drv.displayName
                  (if load.refId ≠ "" then load.refId else fsr)
              | none => RouteOutcome.unresolved
            | _ => RouteOutcome.unresolved
          else if 1 < cands.length then
            RouteOutcome.ambiguous cands
              ("Ambiguous inbound route for subject \x27" ++
                (⟨env.inboundSubject.data.take 120⟩ : String) ++
                "\x27 and load ref \x27" ++ fsr ++ "\x27.")
          else RouteOutcome.unresolved

/-- Result of `_route_and_store`: the new state, whether the source
message should be marked seen, whether the decision pipeline ran, and
the attempted outbound sends. -/
structure RouteResult where
  db : Db
  markSeen : Bool
  pipelineRan : Bool
  sends : List OutboundEmail
deriving Repr

/-- The stored audit body for an inbound broker message
(inbound_listener.py:319-325). -/
def storedInboundBody (env : InboundEnv) (handle loadRef : String) : String :=
  let normalizedBody : String :=
    if (⟨trimChars env.inboundBody.data⟩ : String) = "" then "[empty message body]"
    else ⟨trimChars env.inboundBody.data⟩
  "From: " ++ env.inboundFrom ++ "\nSubject: " ++ env.inboundSubject ++
    "\nTo-Token: " ++ handle ++ "+" ++ loadRef ++ "\n\n" ++ normalizedBody

/-- The statuses that block auto-negotiation
(inbound_listener.py:356). -/
def blockedStatuses : List String :=
  ["Manual", "CLOSED", "CLOSED_PENDING_EMAIL", "RATE_CON_RECEIVED", "RATE_CON_SIGNED"]

/-- Embedding of `_route_and_store` (inbound_listener.py:193-381):
resolution cascade, rate-con attachment handling for CLOSED
negotiations, duplicate suppression, broker-message insertion, and the
gated decision pipeline. -/
def route_and_store (env : InboundEnv) (db : Db) : RouteResult :=
  match resolveInbound env db with
  | RouteOutcome.ambiguous cands reason =>
    { db := set_manual_review db cands reason, markSeen := true,
      pipelineRan := false, sends := [] }
  | RouteOutcome.unresolved =>
    { db := db, markSeen := true, pipelineRan := false, sends := [] }
  | RouteOutcome.resolved neg drv _load handle loadRef =>
    let withAttach : Db × NegotiationR :=
      if neg.status = "CLOSED" ∧ env.hasPdfAttachment then
        let neg1 := { neg with
          status := "RATE_CON_RECEIVED"
          rateConPath := some env.attachmentName }
        (addMessage (updateNegotiation db neg1)
          ⟨neg.id, "System",
            "RATE CON / CONTRACT RECEIVED: " ++ env.attachmentName ++
              ". Please review and sign.", false⟩, neg1)
      else (db, neg)
    let db1 := withAttach.1
    let neg1 := withAttach.2
    let stored := storedInboundBody env handle loadRef
    if db1.messages.any (fun m =>
        m.negotiationId = neg.id && m.sender = "Broker" && m.body = stored) then
      { db := db1, markSeen := true, pipelineRan := false, sends := [] }
    else
      let db2 := addMessage db1 ⟨neg.id, "Broker", stored, false⟩
      let normalizedBody : String :=
        if (⟨trimChars env.inboundBody.data⟩ : String) = "" then "[empty message body]"
        else ⟨trimChars env.inboundBody.data⟩
      if drv.autoNegotiate ∧ neg1.status ∉ blockedStatuses then
        let outcome := handle_broker_reply env.aiPayload env.sendSuccess neg1
          normalizedBody drv db2
        { db := outcome.db, markSeen := true, pipelineRan := true,
          sends := outcome.sends }
      else
        { db := db2, markSeen := true, pipelineRan := false, sends := [] }

/-- Sample rows used by the concrete witnesses below. -/
def sampleNeg : NegotiationR :=
  { id := 5, loadId := 1, driverId := 7, brokerMcNumber := "MC1", status := "ACTIVE",
    currentOffer := none, rateConPath := none, pendingReviewSubject := none,
    pendingReviewBody := none, pendingReviewAction := none, pendingReviewPrice := none }

/-- A second negotiation on the same load (for the ambiguity witness). -/
def sampleNeg2 : NegotiationR :=
  { sampleNeg with id := 6, driverId := 8 }

/-- A driver with review-before-send enabled. -/
def sampleDriverReview : DriverR :=
  { id := 7, displayName := "alice", minCpm := 0, minFlatRate := 2000,
    autoNegotiate := true, reviewBeforeSend := true }

/-- A driver with direct send. -/
def sampleDriverSend : DriverR :=
  { sampleDriverReview with reviewBeforeSend := false }

/-- A load whose reference digits are outside the plausible price
range. -/
def sampleLoad : LoadR :=
  { id := 1, refId := "LREF9", origin := none, destination := none }

/-- A database with one resolvable negotiation. -/
def sampleDb : Db :=
  { negotiations := [sampleNeg], messages := [], drivers := [sampleDriverReview],
    loads := [sampleLoad], brokerEmails := [⟨"MC1", "broker@x.test", 1⟩] }

/-- The message/side-table frame of a state transition: drivers, loads
and broker emails untouched, messages only extended by SYSTEM-sender
rows. -/
def MsgFrame (db db2 : Db) : Prop :=
  db2.drivers = db.drivers ∧ db2.loads = db.loads ∧
  db2.brokerEmails = db.brokerEmails ∧
  ∃ newMsgs, db2.messages = db.messages ++ newMsgs ∧
    ∀ m ∈ newMsgs, m.sender = "SYSTEM"

/-- The negotiation-table frame of a state transition relative to an
orchestrated row `neg`: either untouched, or all rows with `neg`'s id
replaced by one row keeping id, driver, load and carrier, with status
changed at most to CLOSING_STANCE. -/
def NegReplaced (db : Db) (neg : NegotiationR) (db2 : Db) : Prop :=
  db2.negotiations = db.negotiations ∨
    ∃ nf : NegotiationR, nf.id = neg.id ∧ nf.driverId = neg.driverId ∧
      nf.loadId = neg.loadId ∧ nf.brokerMcNumber = neg.brokerMcNumber ∧
      (nf.status = neg.status ∨ nf.status = "CLOSING_STANCE") ∧
      db2.negotiations = db.negotiations.map (fun x => if x.id = neg.id then nf else x)

/-- The `load_ref` used by the direct negotiation-id route
(inbound_listener.py:222): `load.ref_id or str(load.id)`. -/
def directResolvedLoadRef (load : LoadR) : String :=
  if load.refId ≠ "" then load.refId else natToString load.id

/-- Number of stored duplicates: messages of a negotiation with sender
Broker and exactly the given body (the filter of
inbound_listener.py:327-335). -/
def brokerDupCount (db : Db) (nid : ℕ) (body : String) : ℕ :=
  (db.messages.filter (fun m =>
    m.negotiationId = nid && m.sender = "Broker" && m.body = body)).length

/-- A concrete inbound environment that resolves directly (subject
token to negotiation 5) and carries a body with no extractable
price. -/
def envDup : InboundEnv :=
  { inboundFrom := "b@x.test", inboundSubject := "Re: update",
    inboundBody := "sounds good", hasPdfAttachment := false,
    attachmentName := "", routingNegotiationId := some (ResolutionLayer.subjectToken, 5),
    routing := none, fallbackSubjectLoadRef := none, aiPayload := none,
    sendSuccess := true }

theorem den_cast_ne_zero (a : ℚ) : ((a.den : ℚ)) ≠ 0 := by
  exact_mod_cast a.den_nz

theorem num_eq_mul_den (a : ℚ) : (a.num : ℚ) = a * a.den := by
  have h := Rat.num_div_den a
  rw [div_eq_iff (den_cast_ne_zero a)] at h
  exact_mod_cast h

theorem qmul_eq (a b : ℚ) : qmul a b = a * b := by
  unfold qmul
  rw [Rat.divInt_eq_div]
  have had : ((a.den : ℚ)) ≠ 0 := den_cast_ne_zero a
  have hbd : ((b.den : ℚ)) ≠ 0 := den_cast_ne_zero b
  push_cast
  rw [div_eq_iff (mul_ne_zero had hbd)]
  have ha' := num_eq_mul_den a
  have hb' := num_eq_mul_den b
  rw [ha', hb']
  ring

theorem qdiv_eq (a b : ℚ) : qdiv a b = a / b := by
  unfold qdiv
  rw [Rat.divInt_eq_div]
  by_cases hb : b = 0
  · subst hb
    simp
  · have hbn : ((b.num : ℚ)) ≠ 0 := by
      exact_mod_cast Rat.num_ne_zero.mpr hb
    have had : ((a.den : ℚ)) ≠ 0 := den_cast_ne_zero a
    push_cast
    rw [div_eq_div_iff (mul_ne_zero had hbn) hb]
    have ha' := num_eq_mul_den a
    have hb' := num_eq_mul_den b
    rw [ha', hb']
    ring

theorem qofInt_eq (n : ℤ) : qofInt n = (n : ℚ) := by
  unfold qofInt
  rw [Rat.divInt_eq_div]
  simp

theorem pymax_eq_max (a b : ℚ) : pymax a b = max a b := by
  unfold pymax
  by_cases h : a ≤ b
  · simp [h, max_eq_right h]
  · simp [h, max_eq_left (le_of_not_le h)]

theorem pyRound_frac_eq (q : ℚ) (f : ℤ) :
    Rat.divInt (q.num - f * q.den) q.den = q - (f : ℚ) := by
  rw [Rat.divInt_eq_div]
  have hd : ((q.den : ℚ)) ≠ 0 := den_cast_ne_zero q
  push_cast
  rw [sub_div]
  rw [Rat.num_div_den]
  congr 1
  field_simp

theorem pyRound_sub_le (q : ℚ) : q - 1/2 ≤ (pyRound q : ℚ) := by
  simp only [pyRound]
  rw [pyRound_frac_eq]
  have h1 : ((⌊q⌋ : ℤ) : ℚ) ≤ q := Int.floor_le q
  have h2 : q < ((⌊q⌋ : ℤ) : ℚ) + 1 := Int.lt_floor_add_one q
  have hhalf : (Rat.divInt 1 2 : ℚ) = 1/2 := by
    rw [Rat.divInt_eq_div]
    norm_num
  rw [hhalf]
  by_cases hc1 : q - ((⌊q⌋ : ℤ) : ℚ) < 1/2
  · simp only [hc1, if_true]
    linarith
  · simp only [hc1, if_false]
    by_cases hc2 : (1:ℚ)/2 < q - ((⌊q⌋ : ℤ) : ℚ)
    · simp only [hc2, if_true]
      push_cast
      linarith
    · simp only [hc2, if_false]
      by_cases hc3 : ⌊q⌋ % 2 = 0
      · simp only [hc3, if_true]
        linarith
      · simp only [hc3, if_false]
        push_cast
        linarith

theorem pymax_le_right (a b : ℚ) : b ≤ pymax a b := by
  rw [pymax_eq_max]
  exact le_max_right a b

theorem pymax_le_left (a b : ℚ) : a ≤ pymax a b := by
  rw [pymax_eq_max]
  exact le_max_left a b

theorem guard_rounded_ge (x af : ℚ) (hax : af ≤ x) :
    af - 25 ≤ qmul (qofInt (pyRound (qdiv x 50))) 50 := by
  rw [qmul_eq, qofInt_eq, qdiv_eq]
  have h := pyRound_sub_le (x / 50)
  have h50 : (x / 50 - 1/2) * 50 ≤ (pyRound (x / 50) : ℚ) * 50 :=
    mul_le_mul_of_nonneg_right h (by norm_num)
  have hx : (x / 50) * 50 = x := by
    field_simp
  nlinarith [h50, hx]

theorem normalizeGuardAction_of_not_vocab (s : String)
    (h1 : pyUpper s ≠ "SEND_COUNTER") (h2 : pyUpper s ≠ "WALK_AWAY")
    (h3 : pyUpper s ≠ "FINALIZE") :
    normalizeGuardAction (some s) = "SEND_COUNTER" := by
  simp only [normalizeGuardAction]
  by_cases hs : s = ""
  · subst hs
    decide
  · simp only [hs, if_false]
    simp [h1, h2, h3]

theorem enforce_action_walk (mc mf dm det : ℚ) (action : Option String)
    (price : Option ℚ) (template : Option String)
    (hw : normalizeGuardAction action = "WALK_AWAY") :
    enforce_decision_guardrails mc mf dm det action price template =
      { action := "WALK_AWAY", price := none, template := "polite_decline" } := by
  simp only [enforce_decision_guardrails, hw, if_true]

theorem enforce_action_counter (mc mf dm det : ℚ) (action : Option String)
    (price : Option ℚ) (template : Option String)
    (hw : ¬ normalizeGuardAction action = "WALK_AWAY") :
    (enforce_decision_guardrails mc mf dm det action price template).action = "SEND_COUNTER" := by
  simp only [enforce_decision_guardrails, hw, if_false]

theorem enforce_price_counter (mc mf dm det : ℚ) (action : Option String)
    (price : Option ℚ) (template : Option String)
    (hw : ¬ normalizeGuardAction action = "WALK_AWAY") :
    (enforce_decision_guardrails mc mf dm det action price template).price =
      some (
        if qmul (qofInt (pyRound (qdiv (pymax (match price with
              | some p => p
              | none => counter_target_from_floor (absolute_floor mc mf dm det))
            (absolute_floor mc mf dm det)) 50))) 50 ≤ 0
        then qmul (qofInt (pyRound (qdiv (absolute_floor mc mf dm det) 50))) 50
        else qmul (qofInt (pyRound (qdiv (pymax (match price with
              | some p => p
              | none => counter_target_from_floor (absolute_floor mc mf dm det))
            (absolute_floor mc mf dm det)) 50))) 50) := by
  simp only [enforce_decision_guardrails, hw, if_false]

/-- Case analysis on the guardrail price expression: it is always a
multiple of 50 and at least the floor minus 25. -/
theorem guard_price_cases (af p0 : ℚ) :
    ∃ q : ℚ, (if qmul (qofInt (pyRound (qdiv (pymax p0 af) 50))) 50 ≤ 0
        then qmul (qofInt (pyRound (qdiv af 50))) 50
        else qmul (qofInt (pyRound (qdiv (pymax p0 af) 50))) 50) = q ∧
      (∃ k : ℤ, q = 50 * k) ∧ af - 25 ≤ q := by
  by_cases hr : qmul (qofInt (pyRound (qdiv (pymax p0 af) 50))) 50 ≤ 0
  · exact ⟨qmul (qofInt (pyRound (qdiv af 50))) 50, by rw [if_pos hr],
      ⟨pyRound (qdiv af 50), by rw [qmul_eq, qofInt_eq]; ring⟩,
      guard_rounded_ge af af le_rfl⟩
  · exact ⟨qmul (qofInt (pyRound (qdiv (pymax p0 af) 50))) 50, by rw [if_neg hr],
      ⟨pyRound (qdiv (pymax p0 af) 50), by rw [qmul_eq, qofInt_eq]; ring⟩,
      guard_rounded_ge (pymax p0 af) af (pymax_le_right p0 af)⟩

/-- C2 counterexample: with driver floor 2020 (not a multiple of 50) and a
suggested price of 1000, the Guardrail Enforcer emits 2000, which is
strictly below the computed floor 2020 — refuting the stated "emitted
price is at least the computed floor". -/
theorem guardrail_below_floor_counterexample :
    (enforce_decision_guardrails 0 2020 0 1800 (some "SEND_COUNTER") (some 1000) none).price
      = some 2000 ∧
    absolute_floor 0 2020 0 1800 = 2020 ∧
    ¬ (2020 : ℚ) ≤ 2000 := by
  refine ⟨by decide, by decide, by norm_num⟩

/-- C2 (amended): for arbitrary untrusted action/price/template inputs the
Guardrail Enforcer emits either send-counter or walk-away; walk-away
occurs exactly when the normalised action is walk-away; any action whose
uppercasing is outside the vocabulary is coerced to send-counter; and a
non-walk-away result carries a price that is a multiple of 50 and at
least the computed floor minus 25 (rounding to the nearest 50 may dip up
to 25 below the floor, which is the amendment forced by the
counterexample). -/
theorem guardrail_enforcer_bounds (mc mf dm det : ℚ)
    (action : Option String) (price : Option ℚ) (template : Option String) :
    ((enforce_decision_guardrails mc mf dm det action price template).action = "SEND_COUNTER" ∨
      (enforce_decision_guardrails mc mf dm det action price template).action = "WALK_AWAY") ∧
    ((enforce_decision_guardrails mc mf dm det action price template).action = "WALK_AWAY" ↔
      normalizeGuardAction action = "WALK_AWAY") ∧
    (∀ s, action = some s → pyUpper s ≠ "SEND_COUNTER" → pyUpper s ≠ "WALK_AWAY" →
      pyUpper s ≠ "FINALIZE" →
      (enforce_decision_guardrails mc mf dm det action price template).action = "SEND_COUNTER") ∧
    ((enforce_decision_guardrails mc mf dm det action price template).action ≠ "WALK_AWAY" →
      ∃ q : ℚ, (enforce_decision_guardrails mc mf dm det action price template).price = some q ∧
        (∃ k : ℤ, q = 50 * k) ∧
        absolute_floor mc mf dm det - 25 ≤ q) := by
  by_cases hw : normalizeGuardAction action = "WALK_AWAY"
  · rw [enforce_action_walk mc mf dm det action price template hw]
    refine ⟨Or.inr rfl, ⟨fun _ => hw, fun _ => rfl⟩, ?_, ?_⟩
    · intro s hs h1 h2 h3
      rw [hs] at hw
      rw [normalizeGuardAction_of_not_vocab s h1 h2 h3] at hw
      exact absurd hw (by decide)
    · intro hne
      exact absurd rfl hne
  · have hgp := guard_price_cases (absolute_floor mc mf dm det)
      (match price with
        | some p => p
        | none => counter_target_from_floor (absolute_floor mc mf dm det))
    have hact := enforce_action_counter mc mf dm det action price template hw
    have hpr := enforce_price_counter mc mf dm det action price template hw
    refine ⟨Or.inl hact, ?_, fun s _ _ _ _ => hact, fun _ => ?_⟩
    · rw [hact]
      exact ⟨fun h => absurd h (by decide), fun h => absurd h hw⟩
    · obtain ⟨q, hqe, hk, hge⟩ := hgp
      exact ⟨q, by rw [hpr, hqe], hk, hge⟩

/-- Witness for `guardrail_enforcer_bounds` at a concrete input: a junk
action "accept" with suggested price 1000 against floor 2000 is coerced
to send-counter and the emitted price is a multiple of 50 at least
1975. -/
theorem guardrail_enforcer_bounds_witness :
    (enforce_decision_guardrails 0 2000 0 1800 (some "accept") (some 1000) none).action
      = "SEND_COUNTER" ∧
    (∃ q : ℚ, (enforce_decision_guardrails 0 2000 0 1800 (some "accept") (some 1000) none).price
        = some q ∧ (∃ k : ℤ, q = 50 * k) ∧
        absolute_floor 0 2000 0 1800 - 25 ≤ q) := by
  have h := guardrail_enforcer_bounds 0 2000 0 1800 (some "accept") (some 1000) none
  exact ⟨h.2.2.1 "accept" rfl (by decide) (by decide) (by decide),
    h.2.2.2 (by decide)⟩

/-- C5: zone classification of the Decision Engine.  The first three
conjuncts state the general ratio-based classification (the ratio is
written with the kernel-computable `qdiv`, which equals ordinary division
by `qdiv_eq`); the remaining conjuncts check the spec's concrete
floor-2000 examples, including that every counter price there is a
multiple of 50 and every close price is at least 2000. -/
theorem decision_engine_zones (mc mf dm det : ℚ)
    (haf : 0 < absolute_floor mc mf dm det) :
    (Rat.divInt 19 20 ≤ qdiv det (absolute_floor mc mf dm det) →
      process_negotiation_logic mc mf dm det =
        { action := "SEND_COUNTER", price := some (max det (absolute_floor mc mf dm det)),
          template := "close_the_deal" }) ∧
    (Rat.divInt 4 5 ≤ qdiv det (absolute_floor mc mf dm det) →
      qdiv det (absolute_floor mc mf dm det) < Rat.divInt 19 20 →
      process_negotiation_logic mc mf dm det =
        { action := "SEND_COUNTER",
          price := some (counter_target_from_floor (absolute_floor mc mf dm det)),
          template := "standard_negotiation" }) ∧
    (qdiv det (absolute_floor mc mf dm det) < Rat.divInt 4 5 →
      process_negotiation_logic mc mf dm det =
        { action := "WALK_AWAY", price := none, template := "polite_decline" }) ∧
    (process_negotiation_logic 0 2000 0 1000 =
      { action := "WALK_AWAY", price := none, template := "polite_decline" }) ∧
    (process_negotiation_logic 0 2000 0 1400 =
      { action := "WALK_AWAY", price := none, template := "polite_decline" }) ∧
    (process_negotiation_logic 0 2000 0 1590 =
      { action := "WALK_AWAY", price := none, template := "polite_decline" }) ∧
    (process_negotiation_logic 0 2000 0 1610 =
      { action := "SEND_COUNTER", price := some 2150, template := "standard_negotiation" }) ∧
    (process_negotiation_logic 0 2000 0 1800 =
      { action := "SEND_COUNTER", price := some 2150, template := "standard_negotiation" }) ∧
    (process_negotiation_logic 0 2000 0 1890 =
      { action := "SEND_COUNTER", price := some 2150, template := "standard_negotiation" }) ∧
    (process_negotiation_logic 0 2000 0 1910 =
      { action := "SEND_COUNTER", price := some 2000, template := "close_the_deal" }) ∧
    (process_negotiation_logic 0 2000 0 2100 =
      { action := "SEND_COUNTER", price := some 2100, template := "close_the_deal" }) ∧
    (process_negotiation_logic 0 2000 0 2400 =
      { action := "SEND_COUNTER", price := some 2400, template := "close_the_deal" }) ∧
    (∃ k : ℤ, (2150 : ℚ) = 50 * k) ∧ (∃ k : ℤ, (2000 : ℚ) = 50 * k) ∧
    (∃ k : ℤ, (2100 : ℚ) = 50 * k) ∧ (∃ k : ℤ, (2400 : ℚ) = 50 * k) ∧
    ((2000 : ℚ) ≤ 2000 ∧ (2000 : ℚ) ≤ 2100 ∧ (2000 : ℚ) ≤ 2400) := by
  refine ⟨?_, ?_, ?_, by decide, by decide, by decide, by decide, by decide, by decide,
    by decide, by decide, by decide, ⟨43, by norm_num⟩, ⟨40, by norm_num⟩,
    ⟨42, by norm_num⟩, ⟨48, by norm_num⟩, by norm_num⟩
  · intro hge
    simp only [process_negotiation_logic, if_pos haf]
    rw [if_pos hge, pymax_eq_max]
  · intro hge hlt
    simp only [process_negotiation_logic, if_pos haf]
    rw [if_neg (not_le.mpr hlt), if_pos ⟨hge, hlt⟩]
  · intro hlt
    have hlt2 : qdiv det (absolute_floor mc mf dm det) < Rat.divInt 19 20 := by
      calc qdiv det (absolute_floor mc mf dm det) < Rat.divInt 4 5 := hlt
        _ < Rat.divInt 19 20 := by decide
    simp only [process_negotiation_logic, if_pos haf]
    rw [if_neg (not_le.mpr hlt2), if_neg (by
      intro hc
      exact absurd hlt (not_lt.mpr hc.1)), if_pos hlt]

/-- Witness for `decision_engine_zones` with floor 2000 and offer 1800:
the ratio 0.90 lands in the negotiate zone and the counter is 2150. -/
theorem decision_engine_zones_witness :
    process_negotiation_logic 0 2000 0 1800 =
      { action := "SEND_COUNTER", price := some 2150, template := "standard_negotiation" } := by
  have h := decision_engine_zones 0 2000 0 1800 (by decide)
  exact h.2.1 (by decide) (by decide)

/-- C6: when neither driver minimum is configured (both read as 0), the
floor falls back to `detected_price * 1.10`, the offer-to-floor ratio is
exactly 10/11 (about 0.909, at most 0.91), and the Decision Engine never
walks away on such a reply. -/
theorem unconfigured_driver_floor_fallback (dm det : ℚ) (hdet : 0 < det) :
    absolute_floor 0 0 dm det = det * (11/10) ∧
    qdiv det (absolute_floor 0 0 dm det) = 10/11 ∧
    ((10 : ℚ)/11 ≤ 91/100) ∧
    (process_negotiation_logic 0 0 dm det).action = "SEND_COUNTER" ∧
    (process_negotiation_logic 0 0 dm det).action ≠ "WALK_AWAY" := by
  have hfloor : absolute_floor 0 0 dm det = det * (11/10) := by
    simp only [absolute_floor]
    have hz : qmul 0 dm = 0 := by
      rw [qmul_eq]
      ring
    rw [hz]
    have hmz : pymax 0 0 = (0:ℚ) := by decide
    rw [hmz, if_pos le_rfl, qmul_eq, Rat.divInt_eq_div]
    norm_num
  have haf : 0 < absolute_floor 0 0 dm det := by
    rw [hfloor]
    positivity
  have hratio : qdiv det (absolute_floor 0 0 dm det) = 10/11 := by
    rw [qdiv_eq, hfloor]
    rw [div_eq_iff (by positivity)]
    ring
  have hzone := (decision_engine_zones 0 0 dm det haf).2.1
  have hstep : process_negotiation_logic 0 0 dm det =
      { action := "SEND_COUNTER",
        price := some (counter_target_from_floor (absolute_floor 0 0 dm det)),
        template := "standard_negotiation" } := by
    apply hzone
    · rw [hratio]
      have : (Rat.divInt 4 5 : ℚ) = 4/5 := by
        rw [Rat.divInt_eq_div]
        norm_num
      rw [this]
      norm_num
    · rw [hratio]
      have : (Rat.divInt 19 20 : ℚ) = 19/20 := by
        rw [Rat.divInt_eq_div]
        norm_num
      rw [this]
      norm_num
  refine ⟨hfloor, hratio, by norm_num, ?_, ?_⟩
  · rw [hstep]
  · rw [hstep]
    exact (by decide : ("SEND_COUNTER" : String) ≠ "WALK_AWAY")

/-- Witness for `unconfigured_driver_floor_fallback` at detected price
1000: the fallback floor is 1100 and the engine counters rather than
walks away. -/
theorem unconfigured_driver_floor_fallback_witness :
    absolute_floor 0 0 0 1000 = (1000 : ℚ) * (11/10) ∧
    (process_negotiation_logic 0 0 0 1000).action ≠ "WALK_AWAY" := by
  have h := unconfigured_driver_floor_fallback 0 1000 (by decide)
  exact ⟨h.1, h.2.2.2.2⟩

theorem qofNat_eq (n : ℕ) : qofNat n = (n : ℚ) := by
  unfold qofNat
  rw [qofInt_eq]
  norm_cast

theorem maxCandidate_mem : ∀ (l : List ℚ), l ≠ [] → maxCandidate l ∈ l
  | [], h => absurd rfl h
  | [x], _ => by simp [maxCandidate]
  | x :: y :: xs, _ => by
    simp only [maxCandidate, pymax_eq_max]
    rcases le_total x (maxCandidate (y :: xs)) with h | h
    · rw [max_eq_right h]
      exact List.mem_cons_of_mem x (maxCandidate_mem (y :: xs) (by simp))
    · rw [max_eq_left h]
      exact List.mem_cons_self x (y :: xs)

theorem le_maxCandidate : ∀ (l : List ℚ) (v : ℚ), v ∈ l → v ≤ maxCandidate l
  | [], v, hv => absurd hv (List.not_mem_nil v)
  | [x], v, hv => by
    simp only [List.mem_singleton] at hv
    simp [maxCandidate, hv]
  | x :: y :: xs, v, hv => by
    simp only [maxCandidate, pymax_eq_max]
    rcases List.mem_cons.mp hv with h | h
    · subst h
      exact le_max_left _ _
    · exact le_trans (le_maxCandidate (y :: xs) v h) (le_max_right _ _)

theorem priceCandidates_inRange (t : List Char) (v : ℚ) (hv : v ∈ priceCandidates t) :
    (300 : ℚ) ≤ v ∧ v ≤ 20000 := by
  simp only [priceCandidates, List.mem_append, List.mem_filter] at hv
  have hr : inPriceRange v = true := by tauto
  simp only [inPriceRange, Bool.and_eq_true, decide_eq_true_eq] at hr
  exact hr

theorem extract_kept_eq (t : List Char) (ig : List ℚ) :
    (if ig.isEmpty then priceCandidates (lowerChars t)
      else (priceCandidates (lowerChars t)).filter (fun v => decide (¬ v ∈ ig))) =
    (priceCandidates (lowerChars t)).filter (fun v => decide (¬ v ∈ ig)) := by
  by_cases h : ig.isEmpty
  · rw [if_pos h]
    have hig : ig = [] := List.isEmpty_iff.mp h
    subst hig
    symm
    apply List.filter_eq_self.mpr
    intro a _
    simp
  · rw [if_neg h]

/-- C7: the Price Extractor keeps only candidates produced by the four
recognised pattern scanners that lie in [300, 20000], removes ignored
values, and returns the maximum of the survivors (or nothing when none
survive); and the spec's concrete examples evaluate as stated, with a
bare number equal to the load's own reference digits excluded even though
it is in range. -/
theorem price_extractor_spec (t : List Char) (ig : List ℚ) :
    (∀ v, extract_price_from_text t ig = some v →
      v ∈ priceCandidates (lowerChars t) ∧ (300 : ℚ) ≤ v ∧ v ≤ 20000 ∧ v ∉ ig ∧
      (∀ w ∈ priceCandidates (lowerChars t), w ∉ ig → w ≤ v)) ∧
    (extract_price_from_text t ig = none →
      ∀ w ∈ priceCandidates (lowerChars t), w ∈ ig) ∧
    extract_price_from_text "We can do $3,200 all-in".data [] = some 3200 ∧
    extract_price_from_text "offering 3.2k".data [] = some 3200 ∧
    extract_price_from_text "32 hundred works".data [] = some 3200 ∧
    extract_price_from_text "at 3200".data [3200] = none ∧
    extract_price_from_text "at 3200".data [] = some 3200 := by
  by_cases ht : t = []
  · subst ht
    refine ⟨?_, ?_, by decide, by decide, by decide, by decide, by decide⟩
    · intro v hv
      rw [show extract_price_from_text [] ig = none from rfl] at hv
      exact absurd hv (by simp)
    · intro _ w hw
      rw [show priceCandidates (lowerChars []) = [] from rfl] at hw
      exact absurd hw (List.not_mem_nil w)
  · have hkept := extract_kept_eq t ig
    have hunfold : extract_price_from_text t ig =
        (if ((priceCandidates (lowerChars t)).filter (fun v => decide (¬ v ∈ ig))).isEmpty
          then none
          else some (maxCandidate
            ((priceCandidates (lowerChars t)).filter (fun v => decide (¬ v ∈ ig))))) := by
      simp only [extract_price_from_text, if_neg ht, hkept]
    refine ⟨?_, ?_, by decide, by decide, by decide, by decide, by decide⟩
    · intro v hv
      rw [hunfold] at hv
      by_cases hke : ((priceCandidates (lowerChars t)).filter
          (fun v => decide (¬ v ∈ ig))).isEmpty
      · rw [if_pos hke] at hv
        exact absurd hv (by simp)
      · rw [if_neg hke] at hv
        have hv' : v = maxCandidate ((priceCandidates (lowerChars t)).filter
            (fun v => decide (¬ v ∈ ig))) := (Option.some_injective ℚ hv).symm
        have hne : ((priceCandidates (lowerChars t)).filter
            (fun v => decide (¬ v ∈ ig))) ≠ [] := by
          intro hc
          rw [hc] at hke
          exact hke rfl
        have hmem := maxCandidate_mem _ hne
        rw [← hv'] at hmem
        have hmem' := List.mem_filter.mp hmem
        have hnig : v ∉ ig := by
          have := hmem'.2
          simpa using this
        have hrange := priceCandidates_inRange (lowerChars t) v hmem'.1
        refine ⟨hmem'.1, hrange.1, hrange.2, hnig, ?_⟩
        intro w hw hwig
        have hwk : w ∈ (priceCandidates (lowerChars t)).filter
            (fun v => decide (¬ v ∈ ig)) :=
          List.mem_filter.mpr ⟨hw, by simpa using hwig⟩
        rw [hv']
        exact le_maxCandidate _ w hwk
    · intro hnone w hw
      by_contra hnig
      have hwk : w ∈ (priceCandidates (lowerChars t)).filter
          (fun v => decide (¬ v ∈ ig)) :=
        List.mem_filter.mpr ⟨hw, by simpa using hnig⟩
      rw [hunfold] at hnone
      by_cases hke : ((priceCandidates (lowerChars t)).filter
          (fun v => decide (¬ v ∈ ig))).isEmpty
      · rw [List.isEmpty_iff.mp hke] at hwk
        exact absurd hwk (List.not_mem_nil w)
      · rw [if_neg hke] at hnone
        exact absurd hnone (by simp)

/-- Witness for `price_extractor_spec`: on the broker reply
"We can do $3,200 all-in" with nothing ignored, the extractor returns
3200, which is an in-range candidate not in the ignored set. -/
theorem price_extractor_spec_witness :
    (3200 : ℚ) ∈ priceCandidates (lowerChars "We can do $3,200 all-in".data) ∧
    (300 : ℚ) ≤ 3200 ∧ (3200 : ℚ) ≤ 20000 ∧ (3200 : ℚ) ∉ ([] : List ℚ) := by
  have h := price_extractor_spec "We can do $3,200 all-in".data []
  have h1 := h.1 3200 (by decide)
  exact ⟨h1.1, h1.2.1, h1.2.2.1, h1.2.2.2.1⟩

theorem findSome?_append_eq {α β : Type} (f : α → Option β) (l1 l2 : List α) :
    (l1 ++ l2).findSome? f =
      (match l1.findSome? f with
        | some b => some b
        | none => l2.findSome? f) := by
  induction l1 with
  | nil => simp [List.findSome?]
  | cons a as ih =>
    simp only [List.cons_append, List.findSome?]
    cases f a with
    | none => simpa using ih
    | some b => rfl

theorem findSome?_map_eq {α β γ : Type} (g : γ → α) (f : α → Option β) (l : List γ) :
    (l.map g).findSome? f = l.findSome? (fun x => f (g x)) := by
  induction l with
  | nil => rfl
  | cons a as ih =>
    simp only [List.map_cons, List.findSome?]
    cases f (g a) with
    | none => simpa using ih
    | some b => rfl

theorem findSome?_eq_some_exists {α β : Type} (f : α → Option β) (l : List α) (b : β)
    (h : l.findSome? f = some b) : ∃ a, a ∈ l ∧ f a = some b := by
  induction l with
  | nil => simp [List.findSome?] at h
  | cons a as ih =>
    cases hfa : f a with
    | some c =>
      simp only [List.findSome?, hfa] at h
      exact ⟨a, List.mem_cons_self a as, by rw [hfa, h]⟩
    | none =>
      simp only [List.findSome?, hfa] at h
      obtain ⟨x, hx, hfx⟩ := ih h
      exact ⟨x, List.mem_cons_of_mem a hx, hfx⟩

/-- C4 counterexample: a message whose Delivered-To header yields an
address list (one address, not a valid tagged address) does not stop the
scan — the To header is still consulted and matched, refuting the
claimed short-circuit on "any address (valid or not)". -/
theorem routing_scan_counterexample :
    getAll ⟨[("Delivered-To", "noreply@example.com"),
             ("To", "dispatch+77@gcdloads.com")]⟩ "Delivered-To"
      = ["noreply@example.com"] ∧
    simpleGetAddresses "noreply@example.com" = ["noreply@example.com"] ∧
    (extract_routing_from_message PlusLocalMode.dispatchAndHandles "gcdloads.com"
        ⟨[("Delivered-To", "noreply@example.com"),
          ("To", "dispatch+77@gcdloads.com")]⟩).map (fun r => r.matchedHeader)
      = some "To" := by
  refine ⟨by decide, by decide, by decide⟩

/-- C4 (amended): recipient-header scanning checks the six headers in the
fixed order and returns the parse of the first (header, value) pair — in
header order, then value order within a header — whose address list
yields a structurally valid tagged address; a header whose values yield
no valid tagged address does not stop the scan (only a valid match
short-circuits), and any match is tagged with a header from the fixed
order. -/
theorem routing_scan_first_valid (mode : PlusLocalMode) (dom : String) (m : EmailMsg) :
    extract_routing_from_message mode dom m =
      (headerOrder.flatMap (fun h => (getAll m h).map (fun v => (h, v)))).findSome?
        (fun p => (extract_routing_data mode dom p.2).map
          (fun r => { driverHandle := r.driverHandle, localPart := r.localPart,
                      loadRef := r.loadRef, matchedHeader := p.1,
                      rawAddress := p.2 })) ∧
    (∀ r, extract_routing_from_message mode dom m = some r →
      r.matchedHeader ∈ headerOrder) := by
  have hmain : ∀ hs : List String,
      hs.findSome? (fun h =>
        (getAll m h).findSome? (fun v =>
          (extract_routing_data mode dom v).map
            (fun r => { driverHandle := r.driverHandle, localPart := r.localPart,
                        loadRef := r.loadRef, matchedHeader := h,
                        rawAddress := v : RouteMatch }))) =
      (hs.flatMap (fun h => (getAll m h).map (fun v => (h, v)))).findSome?
        (fun p => (extract_routing_data mode dom p.2).map
          (fun r => { driverHandle := r.driverHandle, localPart := r.localPart,
                      loadRef := r.loadRef, matchedHeader := p.1,
                      rawAddress := p.2 })) := by
    intro hs
    induction hs with
    | nil => rfl
    | cons h hs ih =>
      simp only [List.flatMap_cons, List.findSome?]
      rw [findSome?_append_eq, findSome?_map_eq]
      cases hfa : (getAll m h).findSome? (fun v =>
          (extract_routing_data mode dom v).map
            (fun r => { driverHandle := r.driverHandle, localPart := r.localPart,
                        loadRef := r.loadRef, matchedHeader := h,
                        rawAddress := v : RouteMatch })) with
      | some r => rfl
      | none => exact ih
  constructor
  · exact hmain headerOrder
  · intro r hr
    unfold extract_routing_from_message at hr
    obtain ⟨h, hmem, hfh⟩ := findSome?_eq_some_exists _ _ _ hr
    obtain ⟨v, _, hfv⟩ := findSome?_eq_some_exists _ _ _ hfh
    have : r.matchedHeader = h := by
      cases hrd : extract_routing_data mode dom v with
      | none => rw [hrd] at hfv; simp at hfv
      | some rd =>
        rw [hrd] at hfv
        simp only [Option.map_some'] at hfv
        have := Option.some_injective _ hfv
        rw [← this]
    rw [this]
    exact hmem

/-- Witness for `routing_scan_first_valid` at a concrete message whose
Delivered-To parses: the result is the flattened first-match and its
matched header belongs to the fixed order. -/
theorem routing_scan_first_valid_witness :
    (∀ r, extract_routing_from_message PlusLocalMode.dispatchAndHandles "gcdloads.com"
        ⟨[("Delivered-To", "dispatch+111@gcdloads.com")]⟩ = some r →
      r.matchedHeader ∈ headerOrder) := by
  exact (routing_scan_first_valid PlusLocalMode.dispatchAndHandles "gcdloads.com"
    ⟨[("Delivered-To", "dispatch+111@gcdloads.com")]⟩).2

theorem isPrefixOf_self (l : List Char) : List.isPrefixOf l l = true := by
  induction l with
  | nil => rfl
  | cons c cs ih => simp [List.isPrefixOf, ih]

theorem listHasSub_suffix (pre n : List Char) : listHasSub n (pre ++ n) = true := by
  induction pre with
  | nil =>
    cases n with
    | nil => rfl
    | cons c cs =>
      simp only [List.nil_append, listHasSub]
      rw [isPrefixOf_self]
      rfl
  | cons p ps ih =>
    simp only [List.cons_append, listHasSub, List.append_eq]
    rw [ih]
    simp

theorem containsCI_append_ref (body gap r : String) :
    containsCI (body ++ (gap ++ r)) r = true := by
  unfold containsCI lowerChars
  rw [String.data_append, String.data_append]
  rw [List.map_append, List.map_append, ← List.append_assoc]
  exact listHasSub_suffix _ _

theorem processNegotiationLogic_action (mc mf dm det : ℚ) :
    (process_negotiation_logic mc mf dm det).action = "SEND_COUNTER" ∨
    (process_negotiation_logic mc mf dm det).action = "WALK_AWAY" := by
  simp only [process_negotiation_logic]
  split
  all_goals
    split
    · exact Or.inl rfl
    · split
      · exact Or.inl rfl
      · split
        · exact Or.inr rfl
        · exact Or.inl rfl

theorem contains_after_ref (e0 loadRef : String) :
    containsCI (if containsCI e0 loadRef then e0
      else e0 ++ ("\n\nRef: " ++ loadRef)) loadRef = true := by
  by_cases h : containsCI e0 loadRef = true
  · rw [if_pos h]
    exact h
  · rw [if_neg (by simpa using h)]
    exact containsCI_append_ref e0 "\n\nRef: " loadRef

theorem composedReplyBody_contains (aiPayload : Option AiSuggestion)
    (neg1 : NegotiationR) (decision : Decision) (loadRef : String) :
    containsCI (composedReplyBody aiPayload neg1 decision loadRef) loadRef = true := by
  unfold composedReplyBody
  exact contains_after_ref _ _

/-- C10: every email body the Reply Orchestrator hands to the
review-persist or send step contains the load reference
case-insensitively: the composed body (including a verbatim AI-supplied
one) gets a "Ref: <load_ref>" line appended whenever the reference does
not already occur, so every attempted outbound send carries it in its
body, and on the review path every negotiation row with the orchestrated
id carries a pending-review body containing it. -/
theorem reply_body_contains_load_ref (aiPayload : Option AiSuggestion)
    (sendSuccess : Bool) (neg : NegotiationR) (text : String) (drv : DriverR) (db : Db) :
    (∀ a n1 d1 r1, containsCI (composedReplyBody a n1 d1 r1) r1 = true) ∧
    (∀ e ∈ (handle_broker_reply aiPayload sendSuccess neg text drv db).sends,
      containsCI e.body (replyLoadRef neg db) = true) ∧
    ((handle_broker_reply aiPayload sendSuccess neg text drv db).retAction
        = "REVIEW_REQUIRED" →
      ∀ x ∈ (handle_broker_reply aiPayload sendSuccess neg text drv db).db.negotiations,
        x.id = neg.id →
        ∃ b, x.pendingReviewBody = some b ∧ containsCI b (replyLoadRef neg db) = true) := by
  refine ⟨fun a n1 d1 r1 => composedReplyBody_contains a n1 d1 r1, ?_⟩
  cases hdet : extract_price_from_text text.data (replyIgnoredValues (replyLoadRef neg db)) with
  | none =>
    constructor
    · intro e he
      simp only [handle_broker_reply, hdet] at he
      exact absurd he (List.not_mem_nil e)
    · intro hra
      simp only [handle_broker_reply, hdet] at hra
      exact absurd hra (by decide)
  | some detected =>
    by_cases hwa : (process_negotiation_logic drv.minCpm drv.minFlatRate 0 detected).action
        = "WALK_AWAY"
    · constructor
      · intro e he
        simp only [handle_broker_reply, hdet, hwa, if_true] at he
        exact absurd he (List.not_mem_nil e)
      · intro hra
        simp only [handle_broker_reply, hdet, hwa, if_true] at hra
        exact absurd hra (by decide)
    · cases hbe : bestBrokerEmail db.brokerEmails neg.brokerMcNumber with
      | none =>
        constructor
        · intro e he
          simp only [handle_broker_reply, hdet, hwa, hbe, if_false] at he
          exact absurd he (List.not_mem_nil e)
        · intro hra
          simp only [handle_broker_reply, hdet, hwa, hbe, if_false] at hra
          exact absurd hra (by decide)
      | some bem =>
        by_cases hrev : drv.reviewBeforeSend = true
        · constructor
          · intro e he
            simp only [handle_broker_reply, hdet, hwa, hbe, hrev, if_false, if_true] at he
            exact absurd he (List.not_mem_nil e)
          · intro _ x hx hxid
            simp only [handle_broker_reply, hdet, hwa, hbe, hrev, if_false, if_true,
              addMessage, updateNegotiation] at hx
            simp only [List.mem_map] at hx
            obtain ⟨y, -, hy⟩ := hx
            by_cases hyid : y.id = neg.id
            · rw [if_pos hyid] at hy
              rw [← hy]
              exact ⟨_, rfl, composedReplyBody_contains _ _ _ _⟩
            · rw [if_neg hyid] at hy
              rw [← hy] at hxid
              exact absurd hxid hyid
        · have hrev' : drv.reviewBeforeSend = false := by
            revert hrev
            cases drv.reviewBeforeSend <;> simp
          by_cases hss : sendSuccess = true
          · constructor
            · intro e he
              simp only [handle_broker_reply, hdet, hwa, hbe, hrev', hss, if_false,
                Bool.false_eq_true, not_true_eq_false] at he
              simp only [List.mem_singleton] at he
              rw [he]
              exact composedReplyBody_contains _ _ _ _
            · intro hra
              simp only [handle_broker_reply, hdet, hwa, hbe, hrev', hss, if_false,
                Bool.false_eq_true, not_true_eq_false] at hra
              rcases processNegotiationLogic_action drv.minCpm drv.minFlatRate 0 detected
                with h | h
              · rw [h] at hra
                exact absurd hra (by decide)
              · exact absurd h hwa
          · have hss' : sendSuccess = false := by
              revert hss
              cases sendSuccess <;> simp
            constructor
            · intro e he
              simp only [handle_broker_reply, hdet, hwa, hbe, hrev', hss', if_false,
                Bool.false_eq_true, not_false_eq_true, if_true] at he
              simp only [List.mem_singleton] at he
              rw [he]
              exact composedReplyBody_contains _ _ _ _
            · intro hra
              simp only [handle_broker_reply, hdet, hwa, hbe, hrev', hss', if_false,
                Bool.false_eq_true, not_false_eq_true, if_true] at hra
              exact absurd hra (by decide)

theorem setManualReview_messages (negs : List NegotiationR) :
    ∀ (db : Db) (r : String),
    (set_manual_review db negs r).messages =
      db.messages ++ negs.map
        (fun n => ⟨n.id, "System", "MANUAL REVIEW REQUIRED: " ++ r, false⟩) := by
  induction negs with
  | nil => intro db r; simp [set_manual_review]
  | cons n ns ih =>
    intro db r
    simp only [set_manual_review, List.foldl_cons] at *
    rw [ih]
    simp [addMessage, updateNegotiation]

theorem setManualReview_preserve (negs : List NegotiationR) :
    ∀ (db : Db) (r : String) (x : NegotiationR),
    x ∈ (set_manual_review db negs r).negotiations →
    x.status = "MANUAL_REVIEW" ∨ x ∈ db.negotiations := by
  induction negs with
  | nil => intro db r x hx; exact Or.inr hx
  | cons n ns ih =>
    intro db r x hx
    simp only [set_manual_review, List.foldl_cons] at hx
    rcases ih _ r x hx with h | h
    · exact Or.inl h
    · simp only [addMessage, updateNegotiation, List.mem_map] at h
      obtain ⟨y, hy, hxy⟩ := h
      by_cases hyid : y.id = n.id
      · rw [if_pos hyid] at hxy
        rw [← hxy]
        exact Or.inl rfl
      · rw [if_neg hyid] at hxy
        rw [← hxy]
        exact Or.inr hy

theorem setManualReview_sets (negs : List NegotiationR) :
    ∀ (db : Db) (r : String) (n : NegotiationR), n ∈ negs →
    ∀ x ∈ (set_manual_review db negs r).negotiations, x.id = n.id →
    x.status = "MANUAL_REVIEW" := by
  induction negs with
  | nil => intro db r n hn; exact absurd hn (List.not_mem_nil n)
  | cons m ms ih =>
    intro db r n hn x hx hxid
    rcases List.mem_cons.mp hn with hnm | hnms
    · subst hnm
      simp only [set_manual_review, List.foldl_cons] at hx
      rcases setManualReview_preserve ms _ r x hx with h | h
      · exact h
      · simp only [addMessage, updateNegotiation, List.mem_map] at h
        obtain ⟨y, _, hxy⟩ := h
        by_cases hyid : y.id = n.id
        · rw [if_pos hyid] at hxy
          rw [← hxy]
        · rw [if_neg hyid] at hxy
          rw [← hxy] at hxid
          exact absurd hxid hyid
    · simp only [set_manual_review, List.foldl_cons] at hx
      exact ih _ r n hnms x hx hxid

/-- C8: when the Subject load-reference fallback resolves a load with two
or more non-terminal negotiations, every candidate is transitioned to
manual-review status, each receives exactly one explanatory System audit
message (in candidate order), the inbound message is treated as handled
(mark-seen, no further fallback), and no automated reply is attempted
(no pipeline run, no sends). -/
theorem ambiguous_fallback_manual_review (env : InboundEnv) (db : Db)
    (load : LoadR) (fsr : String)
    (h1 : env.routingNegotiationId = none) (h2 : env.routing = none)
    (h3 : env.fallbackSubjectLoadRef = some fsr)
    (h4 : find_load_by_ref db (some fsr) = some load)
    (h5 : 2 ≤ (activeCandidatesForLoad db load.id).length) :
    route_and_store env db =
      { db := set_manual_review db (activeCandidatesForLoad db load.id)
          ("Ambiguous inbound route for subject \x27" ++
            (⟨env.inboundSubject.data.take 120⟩ : String) ++
            "\x27 and load ref \x27" ++ fsr ++ "\x27."),
        markSeen := true, pipelineRan := false, sends := [] } ∧
    (∀ n ∈ activeCandidatesForLoad db load.id,
      ∀ x ∈ (route_and_store env db).db.negotiations, x.id = n.id →
        x.status = "MANUAL_REVIEW") ∧
    (route_and_store env db).db.messages =
      db.messages ++ (activeCandidatesForLoad db load.id).map
        (fun n => ⟨n.id, "System",
          "MANUAL REVIEW REQUIRED: " ++
            ("Ambiguous inbound route for subject \x27" ++
              (⟨env.inboundSubject.data.take 120⟩ : String) ++
              "\x27 and load ref \x27" ++ fsr ++ "\x27."), false⟩) ∧
    (route_and_store env db).pipelineRan = false ∧
    (route_and_store env db).sends = [] ∧
    (route_and_store env db).markSeen = true := by
  have hres : resolveInbound env db =
      RouteOutcome.ambiguous (activeCandidatesForLoad db load.id)
        ("Ambiguous inbound route for subject \x27" ++
          (⟨env.inboundSubject.data.take 120⟩ : String) ++
          "\x27 and load ref \x27" ++ fsr ++ "\x27.") := by
    have hne1 : ¬ (activeCandidatesForLoad db load.id).length = 1 := by omega
    have hlt : 1 < (activeCandidatesForLoad db load.id).length := by omega
    simp only [resolveInbound, h1, h2, h3, h4]
    rw [if_neg hne1, if_pos hlt]
  have hroute : route_and_store env db =
      { db := set_manual_review db (activeCandidatesForLoad db load.id)
          ("Ambiguous inbound route for subject \x27" ++
            (⟨env.inboundSubject.data.take 120⟩ : String) ++
            "\x27 and load ref \x27" ++ fsr ++ "\x27."),
        markSeen := true, pipelineRan := false, sends := [] } := by
    simp only [route_and_store, hres]
  refine ⟨hroute, ?_, ?_, ?_, ?_, ?_⟩
  · intro n hn x hx hxid
    rw [hroute] at hx
    exact setManualReview_sets _ _ _ n hn x hx hxid
  · rw [hroute]
    exact setManualReview_messages _ _ _
  · rw [hroute]
  · rw [hroute]
  · rw [hroute]

/-- Witness for `ambiguous_fallback_manual_review`: a load matched only
by the Subject heuristic with two active negotiations sends both to
manual review with one audit message each and no reply. -/
theorem ambiguous_fallback_manual_review_witness :
    (route_and_store
      { inboundFrom := "b@x.test", inboundSubject := "RE: load LREF9",
        inboundBody := "sounds good", hasPdfAttachment := false, attachmentName := "",
        routingNegotiationId := none, routing := none,
        fallbackSubjectLoadRef := some "LREF9", aiPayload := none, sendSuccess := true }
      { sampleDb with negotiations := [sampleNeg, sampleNeg2] }).pipelineRan = false ∧
    (∀ x ∈ (route_and_store
      { inboundFrom := "b@x.test", inboundSubject := "RE: load LREF9",
        inboundBody := "sounds good", hasPdfAttachment := false, attachmentName := "",
        routingNegotiationId := none, routing := none,
        fallbackSubjectLoadRef := some "LREF9", aiPayload := none, sendSuccess := true }
      { sampleDb with negotiations := [sampleNeg, sampleNeg2] }).db.negotiations,
      x.id = sampleNeg.id → x.status = "MANUAL_REVIEW") := by
  have h := ambiguous_fallback_manual_review
    { inboundFrom := "b@x.test", inboundSubject := "RE: load LREF9",
      inboundBody := "sounds good", hasPdfAttachment := false, attachmentName := "",
      routingNegotiationId := none, routing := none,
      fallbackSubjectLoadRef := some "LREF9", aiPayload := none, sendSuccess := true }
    { sampleDb with negotiations := [sampleNeg, sampleNeg2] }
    sampleLoad "LREF9" rfl rfl rfl (by decide) (by decide)
  exact ⟨h.2.2.2.1, fun x hx hxid => h.2.1 sampleNeg (by decide) x hx hxid⟩

theorem statusAfter_cases (mc mf dm det : ℚ) (st : String) :
    statusAfterNegotiationLogic mc mf dm det st = st ∨
    statusAfterNegotiationLogic mc mf dm det st = "CLOSING_STANCE" := by
  simp only [statusAfterNegotiationLogic]
  split
  all_goals
    split
    · exact Or.inr rfl
    · exact Or.inl rfl

theorem msgFrame_refl (db : Db) : MsgFrame db db :=
  ⟨rfl, rfl, rfl, [], by simp, by simp⟩

theorem msgFrame_add (db db2 : Db) (m : MessageR) (h : MsgFrame db db2)
    (hm : m.sender = "SYSTEM") : MsgFrame db (addMessage db2 m) := by
  obtain ⟨h1, h2, h3, Δ, h4, h5⟩ := h
  refine ⟨h1, h2, h3, Δ ++ [m], ?_, ?_⟩
  · simp only [addMessage, h4, List.append_assoc]
  · intro x hx
    rcases List.mem_append.mp hx with hx | hx
    · exact h5 x hx
    · rw [List.mem_singleton.mp hx]
      exact hm

theorem msgFrame_update (db db2 : Db) (n : NegotiationR) (h : MsgFrame db db2) :
    MsgFrame db (updateNegotiation db2 n) := by
  obtain ⟨h1, h2, h3, Δ, h4, h5⟩ := h
  exact ⟨h1, h2, h3, Δ, h4, h5⟩

theorem negReplaced_refl (db : Db) (neg : NegotiationR) : NegReplaced db neg db :=
  Or.inl rfl

theorem negReplaced_add (db db2 : Db) (neg : NegotiationR) (m : MessageR)
    (h : NegReplaced db neg db2) : NegReplaced db neg (addMessage db2 m) := h

theorem replace_map_chain (l : List NegotiationR) (nid : ℕ) (n1 n2 : NegotiationR)
    (h1 : n1.id = nid) (h2 : n2.id = nid) :
    (l.map (fun x => if x.id = nid then n1 else x)).map
        (fun x => if x.id = n2.id then n2 else x) =
      l.map (fun x => if x.id = nid then n2 else x) := by
  rw [List.map_map]
  apply List.map_congr_left
  intro x _
  by_cases hx : x.id = nid
  · simp only [Function.comp_apply, hx, if_true]
    rw [if_pos (by rw [h1, h2])]
  · simp only [Function.comp_apply, hx, if_false]
    rw [if_neg (by rw [h2]; exact hx)]

theorem negReplaced_update (db db2 : Db) (neg nf : NegotiationR)
    (h : NegReplaced db neg db2) (hid : nf.id = neg.id)
    (hdrv : nf.driverId = neg.driverId) (hload : nf.loadId = neg.loadId)
    (hmc : nf.brokerMcNumber = neg.brokerMcNumber)
    (hst : nf.status = neg.status ∨ nf.status = "CLOSING_STANCE") :
    NegReplaced db neg (updateNegotiation db2 nf) := by
  rcases h with h | ⟨nf0, h0id, _, _, _, _, heq⟩
  · refine Or.inr ⟨nf, hid, hdrv, hload, hmc, hst, ?_⟩
    simp only [updateNegotiation, h]
    rw [show (fun (x : NegotiationR) => if x.id = nf.id then nf else x) =
      (fun x => if x.id = neg.id then nf else x) by rw [hid]]
  · refine Or.inr ⟨nf, hid, hdrv, hload, hmc, hst, ?_⟩
    simp only [updateNegotiation, heq]
    exact replace_map_chain db.negotiations neg.id nf0 nf h0id hid

/-- Frame property of the Reply Orchestrator: it never touches drivers,
loads or broker emails, appends only SYSTEM-sender messages, and its only
negotiation mutation replaces the rows with the orchestrated id by one
updated row keeping id, driver, load and carrier, with status changed at
most to CLOSING_STANCE. -/
theorem handleBrokerReply_frame (aiPayload : Option AiSuggestion) (sendSuccess : Bool)
    (neg : NegotiationR) (text : String) (drv : DriverR) (db : Db) :
    MsgFrame db (handle_broker_reply aiPayload sendSuccess neg text drv db).db ∧
    NegReplaced db neg (handle_broker_reply aiPayload sendSuccess neg text drv db).db := by
  cases hdet : extract_price_from_text text.data (replyIgnoredValues (replyLoadRef neg db)) with
  | none =>
    simp only [handle_broker_reply, hdet]
    exact ⟨msgFrame_refl db, negReplaced_refl db neg⟩
  | some detected =>
    have hstc := statusAfter_cases drv.minCpm drv.minFlatRate 0 detected neg.status
    by_cases hwa : (process_negotiation_logic drv.minCpm drv.minFlatRate 0 detected).action
        = "WALK_AWAY"
    · simp only [handle_broker_reply, hdet, hwa, if_true]
      exact ⟨msgFrame_add _ _ _ (msgFrame_update _ _ _ (msgFrame_refl db)) rfl,
        negReplaced_add _ _ _ _ (negReplaced_update _ _ _ _ (negReplaced_refl db neg)
          rfl rfl rfl rfl hstc)⟩
    · cases hbe : bestBrokerEmail db.brokerEmails neg.brokerMcNumber with
      | none =>
        simp only [handle_broker_reply, hdet, hwa, hbe, if_false]
        exact ⟨msgFrame_add _ _ _
            (msgFrame_add _ _ _ (msgFrame_update _ _ _ (msgFrame_refl db)) rfl) rfl,
          negReplaced_add _ _ _ _ (negReplaced_add _ _ _ _
            (negReplaced_update _ _ _ _ (negReplaced_refl db neg) rfl rfl rfl rfl hstc))⟩
      | some bem =>
        by_cases hrev : drv.reviewBeforeSend = true
        · simp only [handle_broker_reply, hdet, hwa, hbe, hrev, if_false, if_true]
          refine ⟨msgFrame_add _ _ _ (msgFrame_update _ _ _
              (msgFrame_add _ _ _ (msgFrame_update _ _ _ (msgFrame_refl db)) rfl)) rfl,
            negReplaced_add _ _ _ _ (negReplaced_update _ _ _ _
              (negReplaced_add _ _ _ _ (negReplaced_update _ _ _ _
                (negReplaced_refl db neg) rfl rfl rfl rfl hstc)) rfl rfl rfl rfl hstc)⟩
        · have hrev' : drv.reviewBeforeSend = false := by
            revert hrev
            cases drv.reviewBeforeSend <;> simp
          by_cases hss : sendSuccess = true
          · simp only [handle_broker_reply, hdet, hwa, hbe, hrev', hss, if_false,
              Bool.false_eq_true, not_true_eq_false]
            cases hpr : (process_negotiation_logic drv.minCpm drv.minFlatRate 0
                detected).price with
            | none =>
              simp only [hpr]
              exact ⟨msgFrame_add _ _ _ (msgFrame_update _ _ _
                  (msgFrame_add _ _ _ (msgFrame_update _ _ _ (msgFrame_refl db)) rfl)) rfl,
                negReplaced_add _ _ _ _ (negReplaced_update _ _ _ _
                  (negReplaced_add _ _ _ _ (negReplaced_update _ _ _ _
                    (negReplaced_refl db neg) rfl rfl rfl rfl hstc)) rfl rfl rfl rfl hstc)⟩
            | some p =>
              simp only [hpr]
              exact ⟨msgFrame_add _ _ _ (msgFrame_update _ _ _
                  (msgFrame_add _ _ _ (msgFrame_update _ _ _ (msgFrame_refl db)) rfl)) rfl,
                negReplaced_add _ _ _ _ (negReplaced_update _ _ _ _
                  (negReplaced_add _ _ _ _ (negReplaced_update _ _ _ _
                    (negReplaced_refl db neg) rfl rfl rfl rfl hstc)) rfl rfl rfl rfl hstc)⟩
          · have hss' : sendSuccess = false := by
              revert hss
              cases sendSuccess <;> simp
            simp only [handle_broker_reply, hdet, hwa, hbe, hrev', hss', if_false,
              Bool.false_eq_true, not_false_eq_true, if_true]
            exact ⟨msgFrame_add _ _ _
                (msgFrame_add _ _ _ (msgFrame_update _ _ _ (msgFrame_refl db)) rfl) rfl,
              negReplaced_add _ _ _ _ (negReplaced_add _ _ _ _
                (negReplaced_update _ _ _ _ (negReplaced_refl db neg) rfl rfl rfl rfl
                  hstc))⟩

theorem find?_map_invariant {α : Type} (g : α → α) (p : α → Bool)
    (hp : ∀ x, p (g x) = p x) (l : List α) :
    (l.map g).find? p = (l.find? p).map g := by
  induction l with
  | nil => rfl
  | cons a as ih =>
    simp only [List.map_cons, List.find?]
    rw [hp a]
    cases hpa : p a with
    | true => rfl
    | false => exact ih

theorem any_false_of_filter_nil (l : List MessageR) (p : MessageR → Bool)
    (h : (l.filter p).length = 0) : l.any p = false := by
  cases hany : l.any p with
  | false => rfl
  | true =>
    obtain ⟨x, hx, hpx⟩ := List.any_eq_true.mp hany
    have : x ∈ l.filter p := List.mem_filter.mpr ⟨hx, hpx⟩
    rw [List.length_eq_zero.mp h] at this
    exact absurd this (List.not_mem_nil x)

theorem filter_nil_of_system (Δ : List MessageR) (nid : ℕ) (body : String)
    (h : ∀ m ∈ Δ, m.sender = "SYSTEM" ∨ m.sender = "System") :
    Δ.filter (fun m =>
      m.negotiationId = nid && m.sender = "Broker" && m.body = body) = [] := by
  apply List.filter_eq_nil_iff.mpr
  intro m hm
  rcases h m hm with hs | hs <;>
  · simp only [hs, Bool.and_eq_true, decide_eq_true_eq]
    intro hc
    exact absurd hc.1.2 (by decide)

theorem any_of_filter_pos (l : List MessageR) (p : MessageR → Bool)
    (h : (l.filter p).length ≠ 0) : l.any p = true := by
  cases hf : l.filter p with
  | nil => rw [hf] at h; exact absurd rfl h
  | cons m ms =>
    have hm : m ∈ l.filter p := by rw [hf]; exact List.mem_cons_self m ms
    have := List.mem_filter.mp hm
    exact List.any_eq_true.mpr ⟨m, this.1, this.2⟩

/-- First-run characterisation used by the idempotence proof: after one
`_route_and_store` on a directly-resolved negotiation with no stored
duplicate, there is exactly one matching Broker message, the driver and
load tables are untouched, and the negotiation table is at most a
single-row replacement whose row can no longer trigger the rate-con
branch. -/
theorem routeAndStore_first_run (env : InboundEnv) (db0 : Db) (rl : ResolutionLayer)
    (nid : ℕ) (neg : NegotiationR) (drv : DriverR) (load : LoadR)
    (hrn : env.routingNegotiationId = some (rl, nid))
    (hneg : findNegotiationById db0 nid = some neg)
    (hdrv : db0.drivers.find? (fun d => d.id = neg.driverId) = some drv)
    (hload : db0.loads.find? (fun l => l.id = neg.loadId) = some load)
    (hfresh : brokerDupCount db0 neg.id
      (storedInboundBody env drv.displayName (directResolvedLoadRef load)) = 0) :
    ∃ nf : NegotiationR,
      nf.id = neg.id ∧ nf.driverId = neg.driverId ∧ nf.loadId = neg.loadId ∧
      ¬ (nf.status = "CLOSED" ∧ env.hasPdfAttachment = true) ∧
      ((route_and_store env db0).db.negotiations = db0.negotiations ∧ nf = neg ∨
        (route_and_store env db0).db.negotiations =
          db0.negotiations.map (fun x => if x.id = neg.id then nf else x)) ∧
      (route_and_store env db0).db.drivers = db0.drivers ∧
      (route_and_store env db0).db.loads = db0.loads ∧
      brokerDupCount (route_and_store env db0).db neg.id
        (storedInboundBody env drv.displayName (directResolvedLoadRef load)) = 1 := by
  have hres0 : resolveInbound env db0 =
      RouteOutcome.resolved neg drv load drv.displayName (directResolvedLoadRef load) := by
    simp only [resolveInbound, hrn, hneg, hdrv, hload, directResolvedLoadRef]
  by_cases hAtt : neg.status = "CLOSED" ∧ env.hasPdfAttachment = true
  · -- rate-con branch fires; the updated status blocks the pipeline
    have hrun : route_and_store env db0 =
        { db := addMessage
            (addMessage (updateNegotiation db0
              { neg with
                status := "RATE_CON_RECEIVED"
                rateConPath := some env.attachmentName })
              ⟨neg.id, "System",
                "RATE CON / CONTRACT RECEIVED: " ++ env.attachmentName ++
                  ". Please review and sign.", false⟩)
            ⟨neg.id, "Broker",
              storedInboundBody env drv.displayName (directResolvedLoadRef load), false⟩,
          markSeen := true, pipelineRan := false, sends := [] } := by
      simp only [route_and_store, hres0, if_pos hAtt]
      have hany : ((addMessage (updateNegotiation db0
          { neg with
            status := "RATE_CON_RECEIVED"
            rateConPath := some env.attachmentName })
          ⟨neg.id, "System",
            "RATE CON / CONTRACT RECEIVED: " ++ env.attachmentName ++
              ". Please review and sign.", false⟩).messages.any (fun m =>
          m.negotiationId = neg.id && m.sender = "Broker" &&
            m.body = storedInboundBody env drv.displayName
              (directResolvedLoadRef load))) = false := by
        apply any_false_of_filter_nil
        simp only [addMessage, updateNegotiation, List.filter_append]
        rw [filter_nil_of_system ([⟨neg.id, "System",
            "RATE CON / CONTRACT RECEIVED: " ++ env.attachmentName ++
              ". Please review and sign.", false⟩] : List MessageR) neg.id _ (by
          intro m hm
          rw [List.mem_singleton.mp hm]
          exact Or.inr rfl)]
        simpa [brokerDupCount] using hfresh
      rw [hany]
      simp only [Bool.false_eq_true, if_false]
      rw [if_neg (by
        intro hc
        exact absurd hc.2 (by decide))]
    refine ⟨{ neg with
        status := "RATE_CON_RECEIVED"
        rateConPath := some env.attachmentName }, rfl, rfl, rfl, ?_, ?_, ?_, ?_, ?_⟩
    · intro hc
      have hcs : ("RATE_CON_RECEIVED" : String) = "CLOSED" := hc.1
      exact absurd hcs (by decide)
    · rw [hrun]
      right
      simp [addMessage, updateNegotiation]
    · rw [hrun]
      rfl
    · rw [hrun]
      rfl
    · rw [hrun]
      simp only [brokerDupCount, addMessage, updateNegotiation, List.filter_append]
      rw [filter_nil_of_system ([⟨neg.id, "System",
          "RATE CON / CONTRACT RECEIVED: " ++ env.attachmentName ++
            ". Please review and sign.", false⟩] : List MessageR) neg.id _ (by
        intro m hm
        rw [List.mem_singleton.mp hm]
        exact Or.inr rfl)]
      have hone : (([⟨neg.id, "Broker",
            storedInboundBody env drv.displayName (directResolvedLoadRef load),
            false⟩] : List MessageR).filter (fun m =>
          m.negotiationId = neg.id && m.sender = "Broker" &&
            m.body = storedInboundBody env drv.displayName
              (directResolvedLoadRef load))).length = 1 := by
        simp
      rw [List.length_append, List.length_append, hone, List.length_nil]
      have h0 : (db0.messages.filter (fun m =>
          m.negotiationId = neg.id && m.sender = "Broker" &&
            m.body = storedInboundBody env drv.displayName
              (directResolvedLoadRef load))).length = 0 := hfresh
      omega
  · -- no rate-con branch; the broker row is inserted and the pipeline may run
    have hany : (db0.messages.any (fun m =>
        m.negotiationId = neg.id && m.sender = "Broker" &&
          m.body = storedInboundBody env drv.displayName
            (directResolvedLoadRef load))) = false :=
      any_false_of_filter_nil _ _ hfresh
    have hrun : route_and_store env db0 =
        (if drv.autoNegotiate ∧ neg.status ∉ blockedStatuses then
          let outcome := handle_broker_reply env.aiPayload env.sendSuccess neg
            (if (⟨trimChars env.inboundBody.data⟩ : String) = ""
              then "[empty message body]" else ⟨trimChars env.inboundBody.data⟩)
            drv (addMessage db0 ⟨neg.id, "Broker",
              storedInboundBody env drv.displayName (directResolvedLoadRef load), false⟩)
          { db := outcome.db, markSeen := true, pipelineRan := true,
            sends := outcome.sends }
        else
          { db := addMessage db0 ⟨neg.id, "Broker",
              storedInboundBody env drv.displayName (directResolvedLoadRef load), false⟩,
            markSeen := true, pipelineRan := false, sends := [] }) := by
      simp only [route_and_store, hres0, if_neg hAtt]
      rw [hany]
      simp only [Bool.false_eq_true, if_false]
    have hcnt2 : brokerDupCount (addMessage db0 ⟨neg.id, "Broker",
        storedInboundBody env drv.displayName (directResolvedLoadRef load), false⟩)
        neg.id (storedInboundBody env drv.displayName (directResolvedLoadRef load))
        = 1 := by
      simp only [brokerDupCount, addMessage, List.filter_append]
      rw [List.length_append]
      have h0 : (db0.messages.filter (fun m =>
          m.negotiationId = neg.id && m.sender = "Broker" &&
            m.body = storedInboundBody env drv.displayName
              (directResolvedLoadRef load))).length = 0 := hfresh
      have hone : (([⟨neg.id, "Broker",
            storedInboundBody env drv.displayName (directResolvedLoadRef load),
            false⟩] : List MessageR).filter (fun m =>
          m.negotiationId = neg.id && m.sender = "Broker" &&
            m.body = storedInboundBody env drv.displayName
              (directResolvedLoadRef load))).length = 1 := by
        simp
      omega
    by_cases hgate : drv.autoNegotiate = true ∧ neg.status ∉ blockedStatuses
    · -- the pipeline runs on the inserted state
      have hrun2 : route_and_store env db0 =
          { db := (handle_broker_reply env.aiPayload env.sendSuccess neg
              (if (⟨trimChars env.inboundBody.data⟩ : String) = ""
                then "[empty message body]" else ⟨trimChars env.inboundBody.data⟩)
              drv (addMessage db0 ⟨neg.id, "Broker",
                storedInboundBody env drv.displayName (directResolvedLoadRef load),
                false⟩)).db,
            markSeen := true, pipelineRan := true,
            sends := (handle_broker_reply env.aiPayload env.sendSuccess neg
              (if (⟨trimChars env.inboundBody.data⟩ : String) = ""
                then "[empty message body]" else ⟨trimChars env.inboundBody.data⟩)
              drv (addMessage db0 ⟨neg.id, "Broker",
                storedInboundBody env drv.displayName (directResolvedLoadRef load),
                false⟩)).sends } := by
        rw [hrun, if_pos hgate]
      obtain ⟨hmsg, hnegrep⟩ := handleBrokerReply_frame env.aiPayload env.sendSuccess neg
        (if (⟨trimChars env.inboundBody.data⟩ : String) = ""
          then "[empty message body]" else ⟨trimChars env.inboundBody.data⟩)
        drv (addMessage db0 ⟨neg.id, "Broker",
          storedInboundBody env drv.displayName (directResolvedLoadRef load), false⟩)
      obtain ⟨hdr, hlo, _, Δ, hmsgs, hΔ⟩ := hmsg
      have hpdf : ¬ (neg.status = "CLOSED" ∧ env.hasPdfAttachment = true) := hAtt
      rcases hnegrep with hunch | ⟨nf, hfid, hfdrv, hfload, _, hfst, hfeq⟩
      · refine ⟨neg, rfl, rfl, rfl, hAtt, ?_, ?_, ?_, ?_⟩
        · left
          refine ⟨?_, rfl⟩
          rw [hrun2]
          exact hunch.trans rfl
        · rw [hrun2]
          exact hdr.trans rfl
        · rw [hrun2]
          exact hlo.trans rfl
        · rw [hrun2]
          simp only [brokerDupCount]
          rw [show (handle_broker_reply env.aiPayload env.sendSuccess neg
              (if (⟨trimChars env.inboundBody.data⟩ : String) = ""
                then "[empty message body]" else ⟨trimChars env.inboundBody.data⟩)
              drv (addMessage db0 ⟨neg.id, "Broker",
                storedInboundBody env drv.displayName (directResolvedLoadRef load),
                false⟩)).db.messages = (addMessage db0 ⟨neg.id, "Broker",
                storedInboundBody env drv.displayName (directResolvedLoadRef load),
                false⟩).messages ++ Δ from hmsgs]
          rw [List.filter_append,
            filter_nil_of_system Δ neg.id _ (fun m hm => Or.inl (hΔ m hm))]
          have hc2 := hcnt2
          simp only [brokerDupCount] at hc2
          rw [List.length_append, List.length_nil, hc2]
      · refine ⟨nf, hfid, hfdrv, hfload, ?_, ?_, ?_, ?_, ?_⟩
        · intro hc
          rcases hfst with h | h
          · rw [h] at hc
            exact hAtt ⟨hc.1, hc.2⟩
          · rw [h] at hc
            exact absurd hc.1 (by decide)
        · right
          rw [hrun2]
          exact hfeq.trans rfl
        · rw [hrun2]
          exact hdr.trans rfl
        · rw [hrun2]
          exact hlo.trans rfl
        · rw [hrun2]
          simp only [brokerDupCount]
          rw [show (handle_broker_reply env.aiPayload env.sendSuccess neg
              (if (⟨trimChars env.inboundBody.data⟩ : String) = ""
                then "[empty message body]" else ⟨trimChars env.inboundBody.data⟩)
              drv (addMessage db0 ⟨neg.id, "Broker",
                storedInboundBody env drv.displayName (directResolvedLoadRef load),
                false⟩)).db.messages = (addMessage db0 ⟨neg.id, "Broker",
                storedInboundBody env drv.displayName (directResolvedLoadRef load),
                false⟩).messages ++ Δ from hmsgs]
          rw [List.filter_append,
            filter_nil_of_system Δ neg.id _ (fun m hm => Or.inl (hΔ m hm))]
          have hc2 := hcnt2
          simp only [brokerDupCount] at hc2
          rw [List.length_append, List.length_nil, hc2]
    · -- pipeline gated off
      have hrun2 : route_and_store env db0 =
          { db := addMessage db0 ⟨neg.id, "Broker",
              storedInboundBody env drv.displayName (directResolvedLoadRef load), false⟩,
            markSeen := true, pipelineRan := false, sends := [] } := by
        rw [hrun, if_neg hgate]
      refine ⟨neg, rfl, rfl, rfl, hAtt, ?_, ?_, ?_, ?_⟩
      · left
        rw [hrun2]
        exact ⟨rfl, rfl⟩
      · rw [hrun2]
        rfl
      · rw [hrun2]
        rfl
      · rw [hrun2]
        exact hcnt2

/-- Second-run characterisation: when the inbound message resolves
directly to a negotiation whose stored body is already present as a
Broker message (inbound_listener.py:327-338), `_route_and_store` skips
the insert and every later step — the database is returned unchanged,
the pipeline does not run and nothing is sent. -/
theorem routeAndStore_duplicate_noop (env : InboundEnv) (db1 : Db)
    (rl : ResolutionLayer) (nid : ℕ) (nf : NegotiationR) (drv : DriverR)
    (load : LoadR)
    (hrn : env.routingNegotiationId = some (rl, nid))
    (hneg : findNegotiationById db1 nid = some nf)
    (hdrv : db1.drivers.find? (fun d => d.id = nf.driverId) = some drv)
    (hload : db1.loads.find? (fun l => l.id = nf.loadId) = some load)
    (hAtt : ¬ (nf.status = "CLOSED" ∧ env.hasPdfAttachment = true))
    (hdup : brokerDupCount db1 nf.id
      (storedInboundBody env drv.displayName (directResolvedLoadRef load)) ≠ 0) :
    route_and_store env db1 =
      { db := db1, markSeen := true, pipelineRan := false, sends := [] } := by
  have hres0 : resolveInbound env db1 =
      RouteOutcome.resolved nf drv load drv.displayName (directResolvedLoadRef load) := by
    simp only [resolveInbound, hrn, hneg, hdrv, hload, directResolvedLoadRef]
  have hany : (db1.messages.any (fun m =>
      m.negotiationId = nf.id && m.sender = "Broker" &&
        m.body = storedInboundBody env drv.displayName
          (directResolvedLoadRef load))) = true :=
    any_of_filter_pos _ _ hdup
  simp only [route_and_store, hres0, if_neg hAtt, hany, if_pos]

/-- C9: submitting the identical inbound body twice for the same
directly-resolved negotiation is idempotent.  The first
`_route_and_store` run leaves exactly one matching Broker message; the
second run hits the exact-duplicate check
(inbound_listener.py:327-338), inserts nothing, leaves the database
unchanged, does not run the decision pipeline and sends nothing. -/
theorem inbound_duplicate_idempotent (env : InboundEnv) (db0 : Db)
    (rl : ResolutionLayer) (nid : ℕ) (neg : NegotiationR) (drv : DriverR)
    (load : LoadR)
    (hrn : env.routingNegotiationId = some (rl, nid))
    (hneg : findNegotiationById db0 nid = some neg)
    (hdrv : db0.drivers.find? (fun d => d.id = neg.driverId) = some drv)
    (hload : db0.loads.find? (fun l => l.id = neg.loadId) = some load)
    (hfresh : brokerDupCount db0 neg.id
      (storedInboundBody env drv.displayName (directResolvedLoadRef load)) = 0) :
    brokerDupCount (route_and_store env db0).db neg.id
        (storedInboundBody env drv.displayName (directResolvedLoadRef load)) = 1 ∧
    route_and_store env (route_and_store env db0).db =
      { db := (route_and_store env db0).db, markSeen := true,
        pipelineRan := false, sends := [] } := by
  obtain ⟨nf, hfid, hfdrv, hfload, hAtt, hnegs, hdr, hlo, hcnt⟩ :=
    routeAndStore_first_run env db0 rl nid neg drv load hrn hneg hdrv hload hfresh
  refine ⟨hcnt, ?_⟩
  have hfind : findNegotiationById (route_and_store env db0).db nid = some nf := by
    rcases hnegs with ⟨hunch, hnfeq⟩ | hmap
    · rw [findNegotiationById, hunch, hnfeq]
      exact hneg
    · rw [findNegotiationById, hmap]
      rw [find?_map_invariant (fun x => if x.id = neg.id then nf else x)
        (fun n => n.id = nid) (by
          intro x
          by_cases hx : x.id = neg.id
          · simp only [if_pos hx]
            have hnx : nf.id = x.id := by rw [hfid, hx]
            simp [hnx]
          · simp only [if_neg hx])]
      rw [show db0.negotiations.find? (fun n => n.id = nid) = some neg from hneg]
      have hni : neg.id = neg.id := rfl
      simp [hni]
  have hdrv2 : (route_and_store env db0).db.drivers.find?
      (fun d => d.id = nf.driverId) = some drv := by
    rw [hdr, hfdrv]
    exact hdrv
  have hload2 : (route_and_store env db0).db.loads.find?
      (fun l => l.id = nf.loadId) = some load := by
    rw [hlo, hfload]
    exact hload
  have hdup : brokerDupCount (route_and_store env db0).db nf.id
      (storedInboundBody env drv.displayName (directResolvedLoadRef load)) ≠ 0 := by
    rw [hfid, hcnt]
    exact one_ne_zero
  exact routeAndStore_duplicate_noop env (route_and_store env db0).db rl nid nf drv
    load hrn hfind hdrv2 hload2 hAtt hdup

/-- Witness for C9 at a concrete database: one Broker row after the
first run, and the second run returns the database unchanged with
pipelineRan false and no sends. -/
theorem inbound_duplicate_idempotent_witness :
    brokerDupCount (route_and_store envDup sampleDb).db sampleNeg.id
        (storedInboundBody envDup sampleDriverReview.displayName
          (directResolvedLoadRef sampleLoad)) = 1 ∧
    route_and_store envDup (route_and_store envDup sampleDb).db =
      { db := (route_and_store envDup sampleDb).db, markSeen := true,
        pipelineRan := false, sends := [] } :=
  inbound_duplicate_idempotent envDup sampleDb ResolutionLayer.subjectToken 5
    sampleNeg sampleDriverReview sampleLoad rfl (by decide) (by decide)
    (by decide) (by decide)

/-- C1: the Reply Orchestrator requests an AI suggestion but never runs
it through the guardrail enforcer — `resolve_ai_decision` returns the
suggestion and `handle_broker_reply` reads only its `email_body`,
deciding action and price from the baseline
`process_negotiation_logic`; `_enforce_decision_guardrails` is never
invoked.  Concretely: with the guardrail-enforced suggestion demanding
WALK_AWAY (no send), the orchestrator still counters and attempts an
outbound send. -/
theorem orchestrator_ignores_ai_suggestion :
    (enforce_decision_guardrails 0 2000 0 1800 (some "WALK_AWAY") none none).action
        = "WALK_AWAY" ∧
    (handle_broker_reply
        (some { action := some "WALK_AWAY", price := none, template := none,
                emailBody := "We pass on this load." })
        true sampleNeg "we can do $1,800 all-in" sampleDriverSend sampleDb).retAction
        = "SEND_COUNTER" ∧
    (handle_broker_reply
        (some { action := some "WALK_AWAY", price := none, template := none,
                emailBody := "We pass on this load." })
        true sampleNeg "we can do $1,800 all-in" sampleDriverSend sampleDb).sends.length
        = 1 :=
  ⟨by decide, by decide, by decide⟩



/-- C3: strict layer precedence of negotiation-id resolution.  A
digits-only plus-tag accepted by the routing resolver always determines
the id; with no such tag (no route, or a non-digit token) a
`[GCD:<digits>]` Subject token wins over the transport header; with
neither, a digits-only `X-GCD-Negotiation-ID` header is used.  The
closed conjuncts check the foreign-domain and non-digit-subject cases:
a structurally valid plus-tag on a foreign domain is ignored entirely,
so the Subject token wins, and the transport header is used when no
Subject token is present; a Subject token with a non-digit payload does
not match and resolution falls through to the transport header. -/
theorem negotiation_id_precedence (mode : PlusLocalMode) (dom : String) (m : EmailMsg) :
    (∀ r, extract_routing_from_message mode dom m = some r →
      isDigitString r.loadRef = true →
      extract_negotiation_id_from_message mode dom m =
        some (ResolutionLayer.plusTag, natOfDigits r.loadRef)) ∧
    ((∀ r, extract_routing_from_message mode dom m = some r →
        isDigitString r.loadRef = false) →
      ∀ n, findGcdToken (trimChars ((msgGet m "Subject").getD "").data) = some n →
      extract_negotiation_id_from_message mode dom m =
        some (ResolutionLayer.subjectToken, n)) ∧
    ((∀ r, extract_routing_from_message mode dom m = some r →
        isDigitString r.loadRef = false) →
      findGcdToken (trimChars ((msgGet m "Subject").getD "").data) = none →
      isDigitString (trimChars ((msgGet m "X-GCD-Negotiation-ID").getD "").data) = true →
      extract_negotiation_id_from_message mode dom m =
        some (ResolutionLayer.xHeader,
          natOfDigits (trimChars ((msgGet m "X-GCD-Negotiation-ID").getD "").data))) ∧
    extract_negotiation_id_from_message PlusLocalMode.dispatchAndHandles "gcdloads.com"
      ⟨[("To", "dispatch+444@gcdloads.com"), ("Subject", "Re: update [GCD:555]"),
        ("X-GCD-Negotiation-ID", "666")]⟩ = some (ResolutionLayer.plusTag, 444) ∧
    extract_negotiation_id_from_message PlusLocalMode.dispatchAndHandles "gcdloads.com"
      ⟨[("To", "broker@somewhere.com"), ("Subject", "Broker reply [GCD:777]"),
        ("X-GCD-Negotiation-ID", "888")]⟩ = some (ResolutionLayer.subjectToken, 777) ∧
    extract_routing_from_message PlusLocalMode.dispatchAndHandles "gcdloads.com"
      ⟨[("To", "dispatch+321@otherdomain.com"), ("Subject", "Re: lane update [GCD:654]"),
        ("X-GCD-Negotiation-ID", "987")]⟩ = none ∧
    extract_negotiation_id_from_message PlusLocalMode.dispatchAndHandles "gcdloads.com"
      ⟨[("To", "dispatch+321@otherdomain.com"), ("Subject", "Re: lane update [GCD:654]"),
        ("X-GCD-Negotiation-ID", "987")]⟩ = some (ResolutionLayer.subjectToken, 654) ∧
    extract_negotiation_id_from_message PlusLocalMode.dispatchAndHandles "gcdloads.com"
      ⟨[("To", "dispatch+321@otherdomain.com"),
        ("X-GCD-Negotiation-ID", "987")]⟩ = some (ResolutionLayer.xHeader, 987) ∧
    extract_negotiation_id_from_message PlusLocalMode.dispatchAndHandles "gcdloads.com"
      ⟨[("Subject", "FW: docs [GCD:ABC123]"), ("X-GCD-Negotiation-ID", "12345")]⟩ =
      some (ResolutionLayer.xHeader, 12345) := by
  refine ⟨?_, ?_, ?_, by decide, by decide, by decide, by decide, by decide, by decide⟩
  · intro r hroute hdig
    simp [extract_negotiation_id_from_message, hroute, hdig]
  · intro hno n hsubj
    cases hroute : extract_routing_from_message mode dom m with
    | none => simp [extract_negotiation_id_from_message, hroute, hsubj]
    | some r =>
      have hdig := hno r hroute
      simp [extract_negotiation_id_from_message, hroute, hdig, hsubj]
  · intro hno hsubj hhdr
    cases hroute : extract_routing_from_message mode dom m with
    | none => simp [extract_negotiation_id_from_message, hroute, hsubj, hhdr]
    | some r =>
      have hdig := hno r hroute
      simp [extract_negotiation_id_from_message, hroute, hdig, hsubj, hhdr]

/-- Witness for `negotiation_id_precedence`: on a message carrying a
digits-only plus-tag, a disagreeing Subject token and a disagreeing
transport header, the plus-tag layer wins with its digits. -/
theorem negotiation_id_precedence_witness :
    extract_negotiation_id_from_message PlusLocalMode.dispatchAndHandles "gcdloads.com"
      ⟨[("To", "dispatch+444@gcdloads.com"), ("Subject", "Re: update [GCD:555]"),
        ("X-GCD-Negotiation-ID", "666")]⟩ =
      some (ResolutionLayer.plusTag, natOfDigits "444".data) := by
  exact (negotiation_id_precedence PlusLocalMode.dispatchAndHandles "gcdloads.com"
      ⟨[("To", "dispatch+444@gcdloads.com"), ("Subject", "Re: update [GCD:555]"),
        ("X-GCD-Negotiation-ID", "666")]⟩).1
    { driverHandle := "dispatch".data, localPart := "dispatch".data,
      loadRef := "444".data, matchedHeader := "To",
      rawAddress := "dispatch+444@gcdloads.com" } (by decide) (by decide)

end GCLoads
